import Mathlib

/-
Verification development for the rlox tree-walking interpreter.

The Rust sources are shallowly embedded as executable Lean definitions:
machine integers become Nat/Int, f64 values become an idealized IEEE model
over exact rationals (rounding and signed zero are not modelled; no theorem
below depends on them), fallible code returns an explicit outcome type in
which a Rust panic is a distinguished result, and the recursive-descent
parser and the tree-walking evaluator take an explicit fuel argument in
place of unbounded recursion (a run that exhausts its fuel is a
distinguished outcome, never confused with success, error or panic).

Rc/RefCell sharing of environment frames and of instance field maps is
modelled by value; the theorems below do not depend on cross-clone
aliasing.
-/

set_option maxHeartbeats 1000000
set_option maxRecDepth 8000

namespace Rlox

/-- Association-list model of HashMap lookup. -/
def assocGet {κ ν : Type} [DecidableEq κ] (l : List (κ × ν)) (k : κ) : Option ν :=
  match l with
  | [] => none
  | (k1, v1) :: rest => if k1 = k then some v1 else assocGet rest k

/-- Association-list model of HashMap::insert (overwrite or append). -/
def assocInsert {κ ν : Type} [DecidableEq κ] (l : List (κ × ν)) (k : κ) (v : ν) :
    List (κ × ν) :=
  match l with
  | [] => [(k, v)]
  | (k1, v1) :: rest => if k1 = k then (k, v) :: rest else (k1, v1) :: assocInsert rest k v

/-- Association-list model of HashMap::contains_key. -/
def assocContains {κ ν : Type} [DecidableEq κ] (l : List (κ × ν)) (k : κ) : Bool :=
  (assocGet l k).isSome

/-- Idealized model of a Rust f64: an exact rational, an infinity, or NaN.
Rounding, overflow to infinity and the sign of zero are not modelled. -/
inductive F64Val : Type where
  | finite (q : ℚ)
  | posInf
  | negInf
  | nan
deriving DecidableEq

/-- IEEE equality: NaN is equal to nothing, including itself. -/
def f64Eq : F64Val → F64Val → Bool
  | F64Val.finite a, F64Val.finite b => a = b
  | F64Val.posInf, F64Val.posInf => true
  | F64Val.negInf, F64Val.negInf => true
  | _, _ => false

/-- IEEE strict less-than: any comparison with NaN is false. -/
def f64Lt : F64Val → F64Val → Bool
  | F64Val.finite a, F64Val.finite b => a < b
  | F64Val.finite _, F64Val.posInf => true
  | F64Val.negInf, F64Val.finite _ => true
  | F64Val.negInf, F64Val.posInf => true
  | _, _ => false

def f64Gt (a b : F64Val) : Bool := f64Lt b a

def f64Le (a b : F64Val) : Bool := f64Lt a b || f64Eq a b

def f64Ge (a b : F64Val) : Bool := f64Le b a

def f64Neg : F64Val → F64Val
  | F64Val.finite q => F64Val.finite (-q)
  | F64Val.posInf => F64Val.negInf
  | F64Val.negInf => F64Val.posInf
  | F64Val.nan => F64Val.nan

def f64Add : F64Val → F64Val → F64Val
  | F64Val.finite a, F64Val.finite b => F64Val.finite (a + b)
  | F64Val.finite _, F64Val.posInf => F64Val.posInf
  | F64Val.finite _, F64Val.negInf => F64Val.negInf
  | F64Val.posInf, F64Val.finite _ => F64Val.posInf
  | F64Val.negInf, F64Val.finite _ => F64Val.negInf
  | F64Val.posInf, F64Val.posInf => F64Val.posInf
  | F64Val.negInf, F64Val.negInf => F64Val.negInf
  | _, _ => F64Val.nan

def f64Sub (a b : F64Val) : F64Val := f64Add a (f64Neg b)

def f64Mul : F64Val → F64Val → F64Val
  | F64Val.finite a, F64Val.finite b => F64Val.finite (a * b)
  | F64Val.finite a, F64Val.posInf =>
      if a = 0 then F64Val.nan else if 0 < a then F64Val.posInf else F64Val.negInf
  | F64Val.finite a, F64Val.negInf =>
      if a = 0 then F64Val.nan else if 0 < a then F64Val.negInf else F64Val.posInf
  | F64Val.posInf, F64Val.finite b =>
      if b = 0 then F64Val.nan else if 0 < b then F64Val.posInf else F64Val.negInf
  | F64Val.negInf, F64Val.finite b =>
      if b = 0 then F64Val.nan else if 0 < b then F64Val.negInf else F64Val.posInf
  | F64Val.posInf, F64Val.posInf => F64Val.posInf
  | F64Val.posInf, F64Val.negInf => F64Val.negInf
  | F64Val.negInf, F64Val.posInf => F64Val.negInf
  | F64Val.negInf, F64Val.negInf => F64Val.posInf
  | _, _ => F64Val.nan

/-- IEEE division as performed by the Rust `/` operator on f64: a finite
number divided by zero is an infinity (or NaN for zero over zero), never
an error. -/
def f64Div : F64Val → F64Val → F64Val
  | F64Val.finite a, F64Val.finite b =>
      if b = 0 then
        (if a = 0 then F64Val.nan else if 0 < a then F64Val.posInf else F64Val.negInf)
      else F64Val.finite (a / b)
  | F64Val.finite _, F64Val.posInf => F64Val.finite 0
  | F64Val.finite _, F64Val.negInf => F64Val.finite 0
  | F64Val.posInf, F64Val.finite b =>
      if 0 ≤ b then F64Val.posInf else F64Val.negInf
  | F64Val.negInf, F64Val.finite b =>
      if 0 ≤ b then F64Val.negInf else F64Val.posInf
  | _, _ => F64Val.nan

def F64Val.isNaN : F64Val → Bool
  | F64Val.nan => true
  | _ => false

def F64Val.isInfOrNaN : F64Val → Bool
  | F64Val.nan => true
  | F64Val.posInf => true
  | F64Val.negInf => true
  | _ => false

/-- Truncation toward zero, as in Rust f64::trunc. -/
def ratTrunc (q : ℚ) : ℤ := if 0 ≤ q then ⌊q⌋ else ⌈q⌉

/-- Model of Rust f64::fract: self minus its truncation (NaN for non-finite). -/
def f64Fract : F64Val → F64Val
  | F64Val.finite q => F64Val.finite (q - (ratTrunc q : ℚ))
  | _ => F64Val.nan

/-- Model of the Rust `as i64` saturating cast from f64. -/
def f64ToI64 : F64Val → ℤ
  | F64Val.finite q =>
      let t := ratTrunc q
      if t < -(2 ^ 63) then -(2 ^ 63)
      else if t > 2 ^ 63 - 1 then 2 ^ 63 - 1
      else t
  | F64Val.posInf => 2 ^ 63 - 1
  | F64Val.negInf => -(2 ^ 63)
  | F64Val.nan => 0

/-- Value of a digit string, most significant digit first. -/
def digitsVal : List Char → Nat → Option Nat
  | [], acc => some acc
  | c :: rest, acc =>
      if '0' ≤ c ∧ c ≤ '9' then digitsVal rest (acc * 10 + (c.toNat - '0'.toNat)) else none

/-- Idealized model of Rust str::parse into f64 for the decimal literals the
scanner produces (digits with an optional fractional part); the value is
exact, rounding to the nearest double is not modelled.  Other shapes give
NaN; the scanner never produces them. -/
def parseDecimalF64 (s : String) : F64Val :=
  match s.data.splitOn '.' with
  | [ds] =>
      match digitsVal ds 0 with
      | some n => F64Val.finite (n : ℚ)
      | none => F64Val.nan
  | [ds, fs] =>
      match digitsVal ds 0, digitsVal fs 0 with
      | some n, some f => F64Val.finite ((n : ℚ) + (f : ℚ) / ((10 : ℚ) ^ fs.length))
      | _, _ => F64Val.nan
  | _ => F64Val.nan

/-- Token kinds.  The snapshot omits token_type.rs; the enum is reconstructed
from its uses throughout scanner.rs, parser.rs and interpreter.rs. -/
inductive TokenType : Type where
  | LeftParen | RightParen | LeftBrace | RightBrace
  | Comma | Dot | Minus | Plus | Semicolon | Slash | Star
  | Bang | BangEqual | Equal | EqualEqual
  | Greater | GreaterEqual | Less | LessEqual
  | Identifier | StringToken | Number
  | And | Class | Else | False | Fun | For | If | Nil | Or
  | Print | Return | Super | This | True | Var | While
  | Eof
deriving DecidableEq

mutual

/-- token.rs Literal.  A Soo is modelled as a plain String. -/
inductive Literal : Type where
  | BoolLiteral (b : Bool)
  | CallableLiteral (c : Callable)
  | F64 (f : F64Val)
  | IdentifierLiteral (s : String)
  | InstanceLiteral (i : Instance)
  | StringLiteral (s : String)
  | None

/-- token.rs Token. -/
inductive Token : Type where
  | mk (typ : TokenType) (lexeme : String) (literal : Literal) (line : Nat)

/-- callable.rs Callable. -/
inductive Callable : Type where
  | mk (arity : Nat) (parameters : List String) (kind : CallableKind)

/-- callable.rs CallableKind. -/
inductive CallableKind : Type where
  | Class (c : Class)
  | Function (declaration : Function) (closure : Environment) (isInitializer : Bool)
  | Native (name : String)

/-- class.rs Class (the Box around the superclass is implicit). -/
inductive Class : Type where
  | mk (name : String) (superclass : Option Class) (methods : List (String × Callable))

/-- instance.rs Instance; the Rc/RefCell field map is modelled by value. -/
inductive Instance : Type where
  | mk (cls : Class) (fields : List (String × Literal))

/-- environment.rs Environment: the runtime scope stack (layers, innermost
last, the global frame first), the resolver lexical scope stack and the
resolution table.  Each Rc/RefCell layer is modelled by value. -/
inductive Environment : Type where
  | mk (layers : List (List (String × Literal)))
      (scopes : List (List (String × Bool)))
      (locals : List (Nat × Nat))

/-- stmt.rs Function (function and method declarations). -/
inductive Function : Type where
  | mk (name : Token) (params : List Token) (body : List Stmt)

/-- expr.rs ExprKind as used by parser.rs, resolver.rs and interpreter.rs
(the stale expr.rs in the snapshot predates these variants). -/
inductive ExprKind : Type where
  | Assign (name : Token) (value : Expr)
  | Binary (left : Expr) (operator : Token) (right : Expr)
  | Call (callee : Expr) (paren : Token) (arguments : List Expr)
  | Get (object : Expr) (name : Token)
  | Grouping (expression : Expr)
  | LiteralExpr (value : Literal)
  | Logical (left : Expr) (operator : Token) (right : Expr)
  | SetExpr (object : Expr) (name : Token) (value : Expr)
  | Super (keyword : Token) (method : Token)
  | This (keyword : Token)
  | Unary (operator : Token) (right : Expr)
  | Variable (name : Token)

/-- expr.rs Expr: a parse-time unique id paired with the node. -/
inductive Expr : Type where
  | mk (id : Nat) (kind : ExprKind)

/-- stmt.rs Stmt, including the Class variant used by resolver.rs and
interpreter.rs (the stale stmt.rs in the snapshot predates it). -/
inductive Stmt : Type where
  | Block (statements : List Stmt)
  | Class (name : Token) (superclass : Option Expr) (methods : List Function)
  | Expression (expression : Expr)
  | Function (function : Function)
  | If (condition : Expr) (thenBranch : Stmt) (elseBranch : Option Stmt)
  | Print (expression : Expr)
  | Return (keyword : Token) (value : Option Expr)
  | Var (name : Token) (initializer : Option Expr)
  | While (condition : Expr) (body : Stmt)

end

def Token.typ : Token → TokenType
  | Token.mk t _ _ _ => t

def Token.lexeme : Token → String
  | Token.mk _ l _ _ => l

def Token.literal : Token → Literal
  | Token.mk _ _ v _ => v

def Token.line : Token → Nat
  | Token.mk _ _ _ n => n

def Callable.arity : Callable → Nat
  | Callable.mk a _ _ => a

def Callable.parameters : Callable → List String
  | Callable.mk _ p _ => p

def Callable.kind : Callable → CallableKind
  | Callable.mk _ _ k => k

def Class.name : Class → String
  | Class.mk n _ _ => n

def Class.superclass : Class → Option Class
  | Class.mk _ s _ => s

def Class.methods : Class → List (String × Callable)
  | Class.mk _ _ m => m

def Instance.cls : Instance → Class
  | Instance.mk c _ => c

def Instance.fields : Instance → List (String × Literal)
  | Instance.mk _ f => f

def Environment.layers : Environment → List (List (String × Literal))
  | Environment.mk l _ _ => l

def Environment.scopes : Environment → List (List (String × Bool))
  | Environment.mk _ s _ => s

def Environment.locals : Environment → List (Nat × Nat)
  | Environment.mk _ _ lo => lo

def Environment.setLayers : Environment → List (List (String × Literal)) → Environment
  | Environment.mk _ s lo, l => Environment.mk l s lo

def Environment.setScopes : Environment → List (List (String × Bool)) → Environment
  | Environment.mk l _ lo, s => Environment.mk l s lo

def Environment.setLocals : Environment → List (Nat × Nat) → Environment
  | Environment.mk l s _, lo => Environment.mk l s lo

def Function.name : Function → Token
  | Function.mk n _ _ => n

def Function.params : Function → List Token
  | Function.mk _ p _ => p

def Function.body : Function → List Stmt
  | Function.mk _ _ b => b

def Expr.id : Expr → Nat
  | Expr.mk i _ => i

def Expr.kind : Expr → ExprKind
  | Expr.mk _ k => k

/-- environment.rs Environment::add_scope: push a fresh innermost layer. -/
def Environment.add_scope (env : Environment) : Environment :=
  env.setLayers (env.layers ++ [[]])

/-- environment.rs Environment::del_scope: Vec::pop of the innermost layer
(a no-op on an empty stack, as Vec::pop is). -/
def Environment.del_scope (env : Environment) : Environment :=
  env.setLayers env.layers.dropLast

/-- environment.rs Environment::define: insert into the innermost layer;
none models the panic of last_mut().unwrap() on an empty stack. -/
def Environment.define (env : Environment) (name : String) (value : Literal) :
    Option Environment :=
  match env.layers.getLast? with
  | none => none
  | some last =>
      some (env.setLayers (env.layers.dropLast ++ [assocInsert last name value]))

/-- environment.rs Environment::ancestor: layers[len - distance - 1]; none
models the panic when the index underflows or is out of range. -/
def Environment.ancestor (env : Environment) (distance : Nat) :
    Option (List (String × Literal)) :=
  if distance + 1 ≤ env.layers.length then
    env.layers.get? (env.layers.length - distance - 1)
  else none

/-- environment.rs Environment::get_at.  The outer Option models the
ancestor panic; the inner Option is the name lookup Rust returns. -/
def Environment.get_at (env : Environment) (distance : Nat) (name : String) :
    Option (Option Literal) :=
  (env.ancestor distance).map (fun layer => assocGet layer name)

/-- environment.rs Environment::assign_at; none models the ancestor panic. -/
def Environment.assign_at (env : Environment) (distance : Nat) (name : Token)
    (value : Literal) : Option (Literal × Environment) :=
  if distance + 1 ≤ env.layers.length then
    match env.layers.get? (env.layers.length - distance - 1) with
    | none => none
    | some layer =>
        some (value, env.setLayers
          (env.layers.set (env.layers.length - distance - 1)
            (assocInsert layer name.lexeme value)))
  else none

/-- environment.rs Environment::assign_global: overwrite an existing global
binding or report the runtime error; none models the panic of
layers.get(0).unwrap() on an empty stack. -/
def Environment.assign_global (env : Environment) (name : Token) (value : Literal) :
    Option (Except (Token × String) (Literal × Environment)) :=
  match env.layers with
  | [] => none
  | g :: rest =>
      if assocContains g name.lexeme then
        some (Except.ok (value, env.setLayers (assocInsert g name.lexeme value :: rest)))
      else
        some (Except.error
          (name, "Undefined variable \x27" ++ name.lexeme ++ "\x27."))

/-- Modelled from the spec: `Environment::assign` is called by the
interpreter on class declarations but is absent from the snapshot of
environment.rs; per section 4.5 it assigns by name walking from the
innermost scope outward, and assigning an undefined name is an error. -/
def Environment.assign (env : Environment) (name : Token) (value : Literal) :
    Except (Token × String) (Literal × Environment) :=
  match env.layers.reverse.findIdx? (fun layer => assocContains layer name.lexeme) with
  | some d =>
      match env.assign_at d name value with
      | some r => Except.ok r
      | none => Except.error (name, "Undefined variable \x27" ++ name.lexeme ++ "\x27.")
  | none =>
      Except.error (name, "Undefined variable \x27" ++ name.lexeme ++ "\x27.")

/-- callable.rs Callable::new_function. -/
def Callable.new_function (declaration : Function) (closure : Environment)
    (isInitializer : Bool) : Callable :=
  Callable.mk declaration.params.length
    (declaration.params.map (fun t => t.lexeme))
    (CallableKind.Function declaration closure isInitializer)

/-- callable.rs Callable::new_class: a class callable whose arity is the
arity of its init method, or zero. -/
def Callable.new_class (name : String) (superclass : Option Class)
    (methods : List (String × Callable)) : Callable :=
  Callable.mk
    ((assocGet methods "init").map Callable.arity |>.getD 0)
    []
    (CallableKind.Class (Class.mk name superclass methods))

/-- environment.rs Environment::new: one global layer holding the native
clock function.  The snapshot writes the variant FunctionLiteral, which
token.rs does not declare; the CallableLiteral variant used everywhere
else is taken. -/
def Environment.new : Environment :=
  Environment.mk
    [[("clock", Literal.CallableLiteral (Callable.mk 0 [] (CallableKind.Native "clock")))]]
    [] []

/-- interpreter.rs resolve: record a depth in the resolution table. -/
def resolve (id depth : Nat) (env : Environment) : Environment :=
  env.setLocals (assocInsert env.locals id depth)

/-- class.rs Class::find_method: this class first, then the superclass
chain. -/
def Class.find_method (c : Class) (name : String) : Option Callable :=
  match c with
  | Class.mk _ superclass methods =>
      match assocGet methods name with
      | some m => some m
      | none =>
          match superclass with
          | some sc => sc.find_method name
          | none => none

/-- callable.rs Callable::bind: push a single-slot scope defining this onto
the captured environment; none models the panic for a class or native
callable. -/
def Callable.bind (c : Callable) (i : Instance) : Option Callable :=
  match c with
  | Callable.mk arity params (CallableKind.Function declaration closure isInit) =>
      match (closure.add_scope).define "this" (Literal.InstanceLiteral i) with
      | some closure2 =>
          some (Callable.mk arity params (CallableKind.Function declaration closure2 isInit))
      | none => none
  | _ => none

/-- instance.rs Instance::new. -/
def Instance.new (c : Class) : Instance := Instance.mk c []

/-- instance.rs Instance::set: insert into the field map. -/
def Instance.set (i : Instance) (name : Token) (value : Literal) : Instance :=
  Instance.mk i.cls (assocInsert i.fields name.lexeme value)

/-- scanner.rs Scanner state: accumulated tokens, the pending lexeme text
and the current line; the remaining source characters are threaded
separately in place of the Peekable iterator. -/
structure SState : Type where
  tokens : List Token
  text : String
  line : Nat

/-- scanner.rs KEYWORDS table. -/
def keywords : List (String × TokenType) :=
  [("and", TokenType.And), ("class", TokenType.Class), ("else", TokenType.Else),
   ("false", TokenType.False), ("for", TokenType.For), ("fun", TokenType.Fun),
   ("if", TokenType.If), ("nil", TokenType.Nil), ("or", TokenType.Or),
   ("print", TokenType.Print), ("return", TokenType.Return),
   ("super", TokenType.Super), ("this", TokenType.This), ("true", TokenType.True),
   ("var", TokenType.Var), ("while", TokenType.While)]

def is_digit (c : Char) : Bool := '0' ≤ c && c ≤ '9'

def is_alpha (c : Char) : Bool :=
  ('a' ≤ c && c ≤ 'z') || ('A' ≤ c && c ≤ 'Z') || c = '_'

def is_alpha_num (c : Char) : Bool := is_alpha c || is_digit c

/-- scanner.rs Scanner::add_token: swap the pending text out as the lexeme,
parse its literal payload by kind, and append the token at the current
line. -/
def add_token (typ : TokenType) (st : SState) : SState :=
  let lexeme := st.text
  let lit : Literal :=
    match typ with
    | TokenType.Identifier => Literal.IdentifierLiteral lexeme
    | TokenType.StringToken => Literal.StringLiteral lexeme
    | TokenType.Number => Literal.F64 (parseDecimalF64 lexeme)
    | _ => Literal.None
  { tokens := st.tokens ++ [Token.mk typ lexeme lit st.line], text := "", line := st.line }

/-- scanner.rs Scanner::match_next: consume the next character when it is
the expected one. -/
def match_next (expected : Char) (src : List Char) (st : SState) :
    Bool × List Char × SState :=
  match src with
  | [] => (false, src, st)
  | c :: rest =>
      if c = expected then (true, rest, { st with text := st.text.push expected })
      else (false, src, st)

/-- scanner.rs Scanner::advance_digits. -/
def advance_digits : List Char → SState → List Char × SState
  | [], st => ([], st)
  | c :: rest, st =>
      if is_digit c then advance_digits rest { st with text := st.text.push c }
      else (c :: rest, st)

/-- scanner.rs Scanner::scan_number: digits, then a fractional part only
when a digit follows the dot. -/
def scan_number (src : List Char) (st : SState) : List Char × SState :=
  let (src1, st1) := advance_digits src st
  match src1 with
  | '.' :: rest =>
      match rest with
      | d :: _ =>
          if is_digit d then
            let (src2, st2) := advance_digits rest { st1 with text := st1.text.push '.' }
            (src2, add_token TokenType.Number st2)
          else (src1, add_token TokenType.Number st1)
      | [] => (src1, add_token TokenType.Number st1)
  | _ => (src1, add_token TokenType.Number st1)

/-- scanner.rs Scanner::scan_identifier. -/
def scan_identifier : List Char → SState → List Char × SState
  | [], st =>
      ([], add_token ((assocGet keywords st.text).getD TokenType.Identifier) st)
  | c :: rest, st =>
      if is_alpha_num c then scan_identifier rest { st with text := st.text.push c }
      else (c :: rest,
        add_token ((assocGet keywords st.text).getD TokenType.Identifier) st)

/-- The peeking loop of scanner.rs Scanner::scan_string: accumulate
characters up to (not including) the closing quote; the Bool records
whether a closing quote was found before end of input. -/
def scan_string_go : List Char → SState → List Char × SState × Bool
  | [], st => ([], st, false)
  | c :: rest, st =>
      if c = '"' then (c :: rest, st, true)
      else
        scan_string_go rest
          { st with text := st.text.push c,
                    line := if c = '\n' then st.line + 1 else st.line }

/-- scanner.rs Scanner::scan_string: on an unterminated string the error is
reported and the function returns without adding a token and without
flagging anything; otherwise the closing quote is consumed, the opening
quote is dropped from the text and a string token is added. -/
def scan_string (src : List Char) (st : SState) : List Char × SState :=
  match scan_string_go src st with
  | (src1, st1, false) => (src1, st1)
  | (src1, st1, true) =>
      match src1 with
      | _ :: rest => (rest, add_token TokenType.StringToken { st1 with text := st1.text.drop 1 })
      | [] => (src1, st1)

/-- The comment loop of scanner.rs Scanner::scan_token: consume through the
end of the line, clearing the pending text at each consumed character. -/
def comment_go : List Char → SState → List Char × SState
  | [], st => ([], st)
  | c :: rest, st =>
      if c = '\n' then (c :: rest, st)
      else comment_go rest { st with text := "" }

/-- scanner.rs Scanner::scan_token: dispatch on the character just
consumed; the Bool is true exactly for the unexpected-character error. -/
def scan_token (c : Char) (src : List Char) (st : SState) :
    List Char × SState × Bool :=
  if c = '(' then (src, add_token TokenType.LeftParen st, false)
  else if c = ')' then (src, add_token TokenType.RightParen st, false)
  else if c = '{' then (src, add_token TokenType.LeftBrace st, false)
  else if c = '}' then (src, add_token TokenType.RightBrace st, false)
  else if c = ',' then (src, add_token TokenType.Comma st, false)
  else if c = '.' then (src, add_token TokenType.Dot st, false)
  else if c = '-' then (src, add_token TokenType.Minus st, false)
  else if c = '+' then (src, add_token TokenType.Plus st, false)
  else if c = ';' then (src, add_token TokenType.Semicolon st, false)
  else if c = '*' then (src, add_token TokenType.Star st, false)
  else if c = '!' then
    let (m, src1, st1) := match_next '=' src st
    (src1, add_token (if m then TokenType.BangEqual else TokenType.Bang) st1, false)
  else if c = '=' then
    let (m, src1, st1) := match_next '=' src st
    (src1, add_token (if m then TokenType.EqualEqual else TokenType.Equal) st1, false)
  else if c = '<' then
    let (m, src1, st1) := match_next '=' src st
    (src1, add_token (if m then TokenType.LessEqual else TokenType.Less) st1, false)
  else if c = '>' then
    let (m, src1, st1) := match_next '=' src st
    (src1, add_token (if m then TokenType.GreaterEqual else TokenType.Greater) st1, false)
  else if c = '/' then
    let (m, src1, st1) := match_next '/' src st
    if m then
      let (src2, st2) := comment_go src1 st1
      (src2, st2, false)
    else (src1, add_token TokenType.Slash st1, false)
  else if c = ' ' || c = '\r' || c = '\t' then
    (src, { st with text := st.text.dropRight 1 }, false)
  else if c = '\n' then
    (src, { st with text := st.text.dropRight 1, line := st.line + 1 }, false)
  else if c = '"' then
    let (src1, st1) := scan_string src st
    (src1, st1, false)
  else if is_digit c then
    let (src1, st1) := scan_number src st
    (src1, st1, false)
  else if is_alpha c then
    let (src1, st1) := scan_identifier src st
    (src1, st1, false)
  else
    (src, { st with text := st.text.dropRight 1 }, true)

/-- The while loop of scanner.rs Scanner::scan_tokens.  Each iteration
consumes at least the character taken by get_next_token, so fuel equal to
the source length never runs out. -/
def scan_tokens_go : Nat → List Char → SState → Bool → List Token × Bool
  | 0, _, st, hadError => (st.tokens, hadError)
  | _ + 1, [], st, hadError => (st.tokens, hadError)
  | fuel + 1, c :: rest, st, hadError =>
      let st1 := { st with text := st.text.push c }
      let (src2, st2, e) := scan_token c rest st1
      scan_tokens_go fuel src2 st2 (hadError || e)

/-- scanner.rs Scanner::scan_tokens: no EOF token is emitted. -/
def scan_tokens (source : String) : List Token × Bool :=
  scan_tokens_go source.length source.data { tokens := [], text := "", line := 1 } false

/-- parser.rs parser state: the fresh-id counter, the remaining tokens of
the Peekable iterator, and the had_error flag threaded as &mut bool. -/
structure PState : Type where
  nextId : Nat
  toks : List Token
  hadErr : Bool

/-- Outcome of a parsing function: success, a (token, message) diagnostic,
a Rust panic, or fuel exhaustion (no Rust counterpart; never confused with
the other outcomes). -/
inductive POut (α : Type) : Type where
  | ok (a : α)
  | err (e : Token × String)
  | panicked
  | fuelOut

def PState.advance (st : PState) : PState :=
  { st with toks := st.toks.drop 1 }

/-- parser.rs ExprId::next. -/
def PState.nextIdStep (st : PState) : Nat × PState :=
  (st.nextId, { st with nextId := st.nextId + 1 })

/-- parser.rs generate_eof. -/
def generate_eof (lineCount : Nat) : Token :=
  Token.mk TokenType.Eof "" Literal.None lineCount

/-- parser.rs error: consume a token (or synthesize EOF), report, and build
the diagnostic pair.  The printed report is not modelled. -/
def perror (lineCount : Nat) (st : PState) (msg : String) :
    (Token × String) × PState :=
  match st.toks with
  | t :: rest => ((t, msg), { st with toks := rest })
  | [] => ((generate_eof lineCount, msg), st)

/-- parser.rs check. -/
def check (typ : TokenType) (st : PState) : Bool :=
  match st.toks.head? with
  | some t => t.typ = typ
  | none => false

/-- parser.rs match_types macro: consume the next token when its type
satisfies the predicate. -/
def matchTypes (p : TokenType → Bool) (st : PState) : Option Token × PState :=
  match st.toks with
  | [] => (none, st)
  | t :: rest => if p t.typ then (some t, { st with toks := rest }) else (none, st)

/-- parser.rs consume: take the next token and demand its type; on a
mismatch the error helper consumes one further token. -/
def consume (typ : TokenType) (eofMessage message : String) (lineCount : Nat)
    (st : PState) : POut Token × PState :=
  match st.toks with
  | t :: rest =>
      if t.typ = typ then (POut.ok t, { st with toks := rest })
      else
        let (e, st2) := perror lineCount { st with toks := rest } message
        (POut.err e, st2)
  | [] =>
      let (e, st2) := perror lineCount st eofMessage
      (POut.err e, st2)

/-- parser.rs report_error: report without throwing, setting had_error. -/
def report_error (st : PState) : PState :=
  { st with hadErr := true }

/-- parser.rs synchronize, on the token list. -/
def synchronizeGo : List Token → List Token
  | [] => []
  | t :: rest =>
      if t.typ = TokenType.Semicolon then rest
      else
        match rest.head? with
        | some t2 =>
            if t2.typ = TokenType.Class || t2.typ = TokenType.Fun ||
               t2.typ = TokenType.Var || t2.typ = TokenType.For ||
               t2.typ = TokenType.If || t2.typ = TokenType.While ||
               t2.typ = TokenType.Print || t2.typ = TokenType.Return
            then rest
            else synchronizeGo rest
        | none => synchronizeGo rest

def synchronize (st : PState) : PState :=
  { st with toks := synchronizeGo st.toks }

mutual

/-- parser.rs declaration. -/
def declaration : Nat → Nat → PState → POut Stmt × PState
  | 0, _, st => (POut.fuelOut, st)
  | fuel + 1, lineCount, st =>
      match st.toks.head? with
      | none => (POut.panicked, st)
      | some t =>
          let (r, st1) :=
            match t.typ with
            | TokenType.Fun => function "function" fuel lineCount st
            | TokenType.Var => var_declaration fuel lineCount st
            | _ => statement fuel lineCount st
          match r with
          | POut.err e => (POut.err e, synchronize st1)
          | other => (other, st1)

termination_by structural a b c => a
/-- parser.rs function (used for both functions and methods). -/
def function : String → Nat → Nat → PState → POut Stmt × PState
  | _, 0, _, st => (POut.fuelOut, st)
  | kind, fuel + 1, lineCount, st =>
      let st1 := st.advance
      match consume TokenType.Identifier
          ("Expected " ++ kind ++ " name, instead found end of file.")
          ("Expected " ++ kind ++ " name.") lineCount st1 with
      | (POut.ok name, st2) =>
          match consume TokenType.LeftParen
              ("Expected \x27(\x27 after " ++ kind ++ " name, instead found end of file.")
              ("Expected \x27(\x27 after " ++ kind ++ " name.") lineCount st2 with
          | (POut.ok _, st3) =>
              let (pr, st4) :=
                if check TokenType.RightParen st3 then (POut.ok [], st3)
                else funParamsLoop fuel lineCount st3 []
              match pr with
              | POut.ok params =>
                  match consume TokenType.RightParen
                      ("Expect \x27)\x27 after paremeters.")
                      ("Expect \x27)\x27 after paremeters, instead found end of file.")
                      lineCount st4 with
                  | (POut.ok _, st5) =>
                      let (br, st6) :=
                        if ! check TokenType.LeftBrace st5 then
                          match consume TokenType.LeftBrace
                              ("Expect \x27\x7b\x27 before " ++ kind ++ " body.")
                              ("Expect \x27\x7b\x27 before " ++ kind ++
                                " body, instead found end of file.")
                              lineCount st5 with
                          | (POut.ok _, s) => (POut.ok (), s)
                          | (POut.err e, s) => (POut.err e, s)
                          | (POut.panicked, s) => (POut.panicked, s)
                          | (POut.fuelOut, s) => (POut.fuelOut, s)
                        else (POut.ok (), st5)
                      match br with
                      | POut.ok _ =>
                          match block fuel lineCount st6 with
                          | (POut.ok body, st7) =>
                              (POut.ok (Stmt.Function (Function.mk name params body)), st7)
                          | (POut.err e, st7) => (POut.err e, st7)
                          | (POut.panicked, st7) => (POut.panicked, st7)
                          | (POut.fuelOut, st7) => (POut.fuelOut, st7)
                      | POut.err e => (POut.err e, st6)
                      | POut.panicked => (POut.panicked, st6)
                      | POut.fuelOut => (POut.fuelOut, st6)
                  | (POut.err e, st5) => (POut.err e, st5)
                  | (POut.panicked, st5) => (POut.panicked, st5)
                  | (POut.fuelOut, st5) => (POut.fuelOut, st5)
              | POut.err e => (POut.err e, st4)
              | POut.panicked => (POut.panicked, st4)
              | POut.fuelOut => (POut.fuelOut, st4)
          | (POut.err e, st3) => (POut.err e, st3)
          | (POut.panicked, st3) => (POut.panicked, st3)
          | (POut.fuelOut, st3) => (POut.fuelOut, st3)
      | (POut.err e, st2) => (POut.err e, st2)
      | (POut.panicked, st2) => (POut.panicked, st2)
      | (POut.fuelOut, st2) => (POut.fuelOut, st2)

termination_by structural a b c d => b
/-- The parameter loop of parser.rs function. -/
def funParamsLoop : Nat → Nat → PState → List Token → POut (List Token) × PState
  | 0, _, st, _ => (POut.fuelOut, st)
  | fuel + 1, lineCount, st, acc =>
      let st0 := if acc.length ≥ 255 then report_error st else st
      match consume TokenType.Identifier
          ("Expected parameter name.")
          ("Expected parameter name, instead found end of file.") lineCount st0 with
      | (POut.ok p, st1) =>
          let acc1 := acc ++ [p]
          match matchTypes (fun tt => tt = TokenType.Comma) st1 with
          | (some _, st2) => funParamsLoop fuel lineCount st2 acc1
          | (none, st2) => (POut.ok acc1, st2)
      | (POut.err e, st1) => (POut.err e, st1)
      | (POut.panicked, st1) => (POut.panicked, st1)
      | (POut.fuelOut, st1) => (POut.fuelOut, st1)

termination_by structural a b c d => a
/-- parser.rs var_declaration. -/
def var_declaration : Nat → Nat → PState → POut Stmt × PState
  | 0, _, st => (POut.fuelOut, st)
  | fuel + 1, lineCount, st =>
      let st1 := st.advance
      match st1.toks with
      | [] =>
          let (e, st2) := perror lineCount st1
            ("Expected variable name, instead found end of file.")
          (POut.err e, st2)
      | t :: rest =>
          if t.typ = TokenType.Identifier then
            let st2 : PState := { st1 with toks := rest }
            let (ir, st3) :=
              match st2.toks.head? with
              | some nt =>
                  if nt.typ = TokenType.Equal then
                    match expression fuel lineCount st2.advance with
                    | (POut.ok e, s) => (POut.ok (some e), s)
                    | (POut.err e, s) => (POut.err e, s)
                    | (POut.panicked, s) => (POut.panicked, s)
                    | (POut.fuelOut, s) => (POut.fuelOut, s)
                  else (POut.ok none, st2)
              | none => (POut.ok none, st2)
            match ir with
            | POut.ok initializer =>
                match st3.toks with
                | nt :: rest2 =>
                    if nt.typ = TokenType.Semicolon then
                      (POut.ok (Stmt.Var t initializer), { st3 with toks := rest2 })
                    else
                      let (e, st4) := perror lineCount { st3 with toks := rest2 }
                        ("Expected \x27;\x27 after variable declaration.")
                      (POut.err e, st4)
                | [] =>
                    let (e, st4) := perror lineCount st3
                      ("Expected \x27;\x27 after variable declaration, instead found end of file.")
                    (POut.err e, st4)
            | POut.err e => (POut.err e, st3)
            | POut.panicked => (POut.panicked, st3)
            | POut.fuelOut => (POut.fuelOut, st3)
          else
            let (e, st2) := perror lineCount { st1 with toks := rest }
              ("Expected variable name.")
            (POut.err e, st2)

termination_by structural a b c => a
/-- parser.rs statement. -/
def statement : Nat → Nat → PState → POut Stmt × PState
  | 0, _, st => (POut.fuelOut, st)
  | fuel + 1, lineCount, st =>
      match st.toks.head? with
      | some t =>
          match t.typ with
          | TokenType.For => for_statement fuel lineCount st
          | TokenType.If => if_statement fuel lineCount st
          | TokenType.Print => print_statement fuel lineCount st
          | TokenType.Return => return_statement fuel lineCount st
          | TokenType.While => while_statement fuel lineCount st
          | TokenType.LeftBrace =>
              match block fuel lineCount st with
              | (POut.ok stmts, st1) => (POut.ok (Stmt.Block stmts), st1)
              | (POut.err e, st1) => (POut.err e, st1)
              | (POut.panicked, st1) => (POut.panicked, st1)
              | (POut.fuelOut, st1) => (POut.fuelOut, st1)
          | _ => expression_statement fuel lineCount st
      | none =>
          let (e, st1) := perror lineCount st ("Expected a statement.")
          (POut.err e, st1)

termination_by structural a b c => a
/-- parser.rs for_statement up to and including the initializer clause;
the rest of the function body is for_statement_tail. -/
def for_statement : Nat → Nat → PState → POut Stmt × PState
  | 0, _, st => (POut.fuelOut, st)
  | fuel + 1, lineCount, st =>
      let st1 := st.advance
      match consume TokenType.LeftParen
          ("Expected \x27(\x27 after \x27for\x27, instead found end of file.")
          ("Expected \x27(\x27 after \x27for\x27.") lineCount st1 with
      | (POut.ok _, st2) =>
          match matchTypes (fun tt => tt = TokenType.Semicolon) st2 with
          | (some _, st3) => for_statement_tail fuel lineCount st3 none
          | (none, st3) =>
              if check TokenType.Var st3 then
                match var_declaration fuel lineCount st3 with
                | (POut.ok s, st4) => for_statement_tail fuel lineCount st4 (some s)
                | (POut.err e, st4) => (POut.err e, st4)
                | (POut.panicked, st4) => (POut.panicked, st4)
                | (POut.fuelOut, st4) => (POut.fuelOut, st4)
              else
                match expression_statement fuel lineCount st3 with
                | (POut.ok s, st4) => for_statement_tail fuel lineCount st4 (some s)
                | (POut.err e, st4) => (POut.err e, st4)
                | (POut.panicked, st4) => (POut.panicked, st4)
                | (POut.fuelOut, st4) => (POut.fuelOut, st4)
      | (POut.err e, st2) => (POut.err e, st2)
      | (POut.panicked, st2) => (POut.panicked, st2)
      | (POut.fuelOut, st2) => (POut.fuelOut, st2)

termination_by structural a b c => a
/-- The remainder of parser.rs for_statement after the initializer: parse
the optional condition and increment, the body, and desugar; an omitted
condition becomes the literal false. -/
def for_statement_tail : Nat → Nat → PState → Option Stmt → POut Stmt × PState
  | 0, _, st, _ => (POut.fuelOut, st)
  | fuel + 1, lineCount, st, initializer =>
      match
        (if ! check TokenType.Semicolon st then
          match expression fuel lineCount st with
          | (POut.ok e, s) => (POut.ok (some e), s)
          | (POut.err e, s) => (POut.err e, s)
          | (POut.panicked, s) => (POut.panicked, s)
          | (POut.fuelOut, s) => (POut.fuelOut, s)
        else (POut.ok none, st)) with
      | (POut.ok condition, st1) =>
          match consume TokenType.Semicolon
              ("Expected \x27;\x27 after loop condition, instead found end of file.")
              ("Expected \x27;\x27 after loop condition.") lineCount st1 with
          | (POut.ok _, st2) =>
              match
                (if ! check TokenType.RightParen st2 then
                  match expression fuel lineCount st2 with
                  | (POut.ok e, s) => (POut.ok (some e), s)
                  | (POut.err e, s) => (POut.err e, s)
                  | (POut.panicked, s) => (POut.panicked, s)
                  | (POut.fuelOut, s) => (POut.fuelOut, s)
                else (POut.ok none, st2)) with
              | (POut.ok increment, st3) =>
                  match consume TokenType.RightParen
                      ("Expected \x27)\x27 after for clauses, instead found end of file.")
                      ("Expected \x27)\x27 after for clauses.") lineCount st3 with
                  | (POut.ok _, st4) =>
                      match statement fuel lineCount st4 with
                      | (POut.ok body0, st5) =>
                          let body1 :=
                            match increment with
                            | some ie => Stmt.Block [body0, Stmt.Expression ie]
                            | none => body0
                          let (condition1, st6) :=
                            match condition with
                            | some c => (c, st5)
                            | none =>
                                let (i, s) := st5.nextIdStep
                                (Expr.mk i (ExprKind.LiteralExpr (Literal.BoolLiteral false)), s)
                          let body2 := Stmt.While condition1 body1
                          let body3 :=
                            match initializer with
                            | some is => Stmt.Block [is, body2]
                            | none => body2
                          (POut.ok body3, st6)
                      | (POut.err e, st5) => (POut.err e, st5)
                      | (POut.panicked, st5) => (POut.panicked, st5)
                      | (POut.fuelOut, st5) => (POut.fuelOut, st5)
                  | (POut.err e, st4) => (POut.err e, st4)
                  | (POut.panicked, st4) => (POut.panicked, st4)
                  | (POut.fuelOut, st4) => (POut.fuelOut, st4)
              | (POut.err e, st3) => (POut.err e, st3)
              | (POut.panicked, st3) => (POut.panicked, st3)
              | (POut.fuelOut, st3) => (POut.fuelOut, st3)
          | (POut.err e, st2) => (POut.err e, st2)
          | (POut.panicked, st2) => (POut.panicked, st2)
          | (POut.fuelOut, st2) => (POut.fuelOut, st2)
      | (POut.err e, st1) => (POut.err e, st1)
      | (POut.panicked, st1) => (POut.panicked, st1)
      | (POut.fuelOut, st1) => (POut.fuelOut, st1)

termination_by structural a b c d => a
/-- parser.rs if_statement. -/
def if_statement : Nat → Nat → PState → POut Stmt × PState
  | 0, _, st => (POut.fuelOut, st)
  | fuel + 1, lineCount, st =>
      let st1 := st.advance
      match st1.toks with
      | lp :: rest =>
          if lp.typ = TokenType.LeftParen then
            match expression fuel lineCount { st1 with toks := rest } with
            | (POut.ok condition, st2) =>
                match st2.toks with
                | rp :: rest2 =>
                    if rp.typ = TokenType.RightParen then
                      match statement fuel lineCount { st2 with toks := rest2 } with
                      | (POut.ok thenBranch, st3) =>
                          match matchTypes (fun tt => tt = TokenType.Else) st3 with
                          | (some _, st4) =>
                              match statement fuel lineCount st4 with
                              | (POut.ok elseBranch, st5) =>
                                  (POut.ok (Stmt.If condition thenBranch (some elseBranch)), st5)
                              | (POut.err e, st5) => (POut.err e, st5)
                              | (POut.panicked, st5) => (POut.panicked, st5)
                              | (POut.fuelOut, st5) => (POut.fuelOut, st5)
                          | (none, st4) =>
                              (POut.ok (Stmt.If condition thenBranch none), st4)
                      | (POut.err e, st3) => (POut.err e, st3)
                      | (POut.panicked, st3) => (POut.panicked, st3)
                      | (POut.fuelOut, st3) => (POut.fuelOut, st3)
                    else
                      let (e, st3) := perror lineCount { st2 with toks := rest2 }
                        ("Expected \x27)\x27 after \x27if\x27 condition.")
                      (POut.err e, st3)
                | [] =>
                    let (e, st3) := perror lineCount st2
                      ("Expected \x27)\x27 after \x27if\x27 condition, instead found end of file.")
                    (POut.err e, st3)
            | (POut.err e, st2) => (POut.err e, st2)
            | (POut.panicked, st2) => (POut.panicked, st2)
            | (POut.fuelOut, st2) => (POut.fuelOut, st2)
          else
            let (e, st2) := perror lineCount { st1 with toks := rest }
              ("Expected \x27(\x27 after \x27if\x27.")
            (POut.err e, st2)
      | [] =>
          let (e, st2) := perror lineCount st1
            ("Expected \x27(\x27 after \x27if\x27, instead found end of file.")
          (POut.err e, st2)

termination_by structural a b c => a
/-- parser.rs print_statement. -/
def print_statement : Nat → Nat → PState → POut Stmt × PState
  | 0, _, st => (POut.fuelOut, st)
  | fuel + 1, lineCount, st =>
      let st1 := st.advance
      match expression fuel lineCount st1 with
      | (POut.ok value, st2) =>
          match st2.toks with
          | nt :: rest =>
              if nt.typ = TokenType.Semicolon then
                (POut.ok (Stmt.Print value), { st2 with toks := rest })
              else
                let (e, st3) := perror lineCount { st2 with toks := rest }
                  ("Expected \x27;\x27 after value.")
                (POut.err e, st3)
          | [] =>
              let (e, st3) := perror lineCount st2
                ("Expected \x27;\x27 after value, instead found end of file.")
              (POut.err e, st3)
      | (POut.err e, st2) => (POut.err e, st2)
      | (POut.panicked, st2) => (POut.panicked, st2)
      | (POut.fuelOut, st2) => (POut.fuelOut, st2)

termination_by structural a b c => a
/-- parser.rs return_statement. -/
def return_statement : Nat → Nat → PState → POut Stmt × PState
  | 0, _, st => (POut.fuelOut, st)
  | fuel + 1, lineCount, st =>
      match st.toks with
      | [] => (POut.panicked, st)
      | keyword :: rest =>
          let st1 : PState := { st with toks := rest }
          let (vr, st2) :=
            if ! check TokenType.Semicolon st1 then
              match expression fuel lineCount st1 with
              | (POut.ok e, s) => (POut.ok (some e), s)
              | (POut.err e, s) => (POut.err e, s)
              | (POut.panicked, s) => (POut.panicked, s)
              | (POut.fuelOut, s) => (POut.fuelOut, s)
            else (POut.ok none, st1)
          match vr with
          | POut.ok value =>
              match consume TokenType.Semicolon
                  ("Expected \x27;\x27 after return value, instead found end of file.")
                  ("Expected \x27;\x27 after return value.") lineCount st2 with
              | (POut.ok _, st3) => (POut.ok (Stmt.Return keyword value), st3)
              | (POut.err e, st3) => (POut.err e, st3)
              | (POut.panicked, st3) => (POut.panicked, st3)
              | (POut.fuelOut, st3) => (POut.fuelOut, st3)
          | POut.err e => (POut.err e, st2)
          | POut.panicked => (POut.panicked, st2)
          | POut.fuelOut => (POut.fuelOut, st2)

termination_by structural a b c => a
/-- parser.rs while_statement. -/
def while_statement : Nat → Nat → PState → POut Stmt × PState
  | 0, _, st => (POut.fuelOut, st)
  | fuel + 1, lineCount, st =>
      let st1 := st.advance
      match st1.toks with
      | lp :: rest =>
          if lp.typ = TokenType.LeftParen then
            match expression fuel lineCount { st1 with toks := rest } with
            | (POut.ok condition, st2) =>
                match st2.toks with
                | rp :: rest2 =>
                    if rp.typ = TokenType.RightParen then
                      match statement fuel lineCount { st2 with toks := rest2 } with
                      | (POut.ok body, st3) => (POut.ok (Stmt.While condition body), st3)
                      | (POut.err e, st3) => (POut.err e, st3)
                      | (POut.panicked, st3) => (POut.panicked, st3)
                      | (POut.fuelOut, st3) => (POut.fuelOut, st3)
                    else
                      let (e, st3) := perror lineCount { st2 with toks := rest2 }
                        ("Expected \x27)\x27 after condition.")
                      (POut.err e, st3)
                | [] =>
                    let (e, st3) := perror lineCount st2
                      ("Expected \x27)\x27 after condition, instead found end of file.")
                    (POut.err e, st3)
            | (POut.err e, st2) => (POut.err e, st2)
            | (POut.panicked, st2) => (POut.panicked, st2)
            | (POut.fuelOut, st2) => (POut.fuelOut, st2)
          else
            let (e, st2) := perror lineCount { st1 with toks := rest }
              ("Expected \x27(\x27 after \x27while\x27.")
            (POut.err e, st2)
      | [] =>
          let (e, st2) := perror lineCount st1
            ("Expected \x27(\x27 after \x27while\x27, instead found end of file.")
          (POut.err e, st2)

termination_by structural a b c => a
/-- parser.rs block: consume the opening brace blindly, then declarations
until the closing brace. -/
def block : Nat → Nat → PState → POut (List Stmt) × PState
  | 0, _, st => (POut.fuelOut, st)
  | fuel + 1, lineCount, st => blockLoop fuel lineCount st.advance []

termination_by structural a b c => a
/-- The declaration loop of parser.rs block. -/
def blockLoop : Nat → Nat → PState → List Stmt → POut (List Stmt) × PState
  | 0, _, st, _ => (POut.fuelOut, st)
  | fuel + 1, lineCount, st, acc =>
      match st.toks.head? with
      | some t =>
          if t.typ = TokenType.RightBrace then (POut.ok acc, st.advance)
          else
            match declaration fuel lineCount st with
            | (POut.ok s, st1) => blockLoop fuel lineCount st1 (acc ++ [s])
            | (POut.err e, st1) => (POut.err e, st1)
            | (POut.panicked, st1) => (POut.panicked, st1)
            | (POut.fuelOut, st1) => (POut.fuelOut, st1)
      | none =>
          let (e, st1) := perror lineCount st ("Expected \x27\x7d\x27 after block.")
          (POut.err e, st1)

termination_by structural a b c d => a
/-- parser.rs expression_statement. -/
def expression_statement : Nat → Nat → PState → POut Stmt × PState
  | 0, _, st => (POut.fuelOut, st)
  | fuel + 1, lineCount, st =>
      match expression fuel lineCount st with
      | (POut.ok e, st1) =>
          match st1.toks with
          | nt :: rest =>
              if nt.typ = TokenType.Semicolon then
                (POut.ok (Stmt.Expression e), { st1 with toks := rest })
              else
                let (d, st2) := perror lineCount { st1 with toks := rest }
                  ("Expected \x27;\x27 after expression.")
                (POut.err d, st2)
          | [] =>
              let (d, st2) := perror lineCount st1
                ("Expected \x27;\x27 after expression, instead found end of file.")
              (POut.err d, st2)
      | (POut.err e, st1) => (POut.err e, st1)
      | (POut.panicked, st1) => (POut.panicked, st1)
      | (POut.fuelOut, st1) => (POut.fuelOut, st1)

termination_by structural a b c => a
/-- parser.rs expression. -/
def expression : Nat → Nat → PState → POut Expr × PState
  | 0, _, st => (POut.fuelOut, st)
  | fuel + 1, lineCount, st => assignment fuel lineCount st

termination_by structural a b c => a
/-- parser.rs assignment: right-associative; an invalid assignment target
is reported (consuming one token) but the parsed expression is kept. -/
def assignment : Nat → Nat → PState → POut Expr × PState
  | 0, _, st => (POut.fuelOut, st)
  | fuel + 1, lineCount, st =>
      match or fuel lineCount st with
      | (POut.ok e, st1) =>
          match st1.toks.head? with
          | some t =>
              if t.typ = TokenType.Equal then
                match assignment fuel lineCount st1.advance with
                | (POut.ok value, st2) =>
                    match e.kind with
                    | ExprKind.Variable name =>
                        let (i, st3) := st2.nextIdStep
                        (POut.ok (Expr.mk i (ExprKind.Assign name value)), st3)
                    | _ =>
                        let (_, st3) := perror lineCount st2 ("Invalid assignment target.")
                        (POut.ok e, st3)
                | (POut.err d, st2) => (POut.err d, st2)
                | (POut.panicked, st2) => (POut.panicked, st2)
                | (POut.fuelOut, st2) => (POut.fuelOut, st2)
              else (POut.ok e, st1)
          | none => (POut.ok e, st1)
      | (POut.err d, st1) => (POut.err d, st1)
      | (POut.panicked, st1) => (POut.panicked, st1)
      | (POut.fuelOut, st1) => (POut.fuelOut, st1)

termination_by structural a b c => a
/-- parser.rs or. -/
def or : Nat → Nat → PState → POut Expr × PState
  | 0, _, st => (POut.fuelOut, st)
  | fuel + 1, lineCount, st =>
      match and fuel lineCount st with
      | (POut.ok e, st1) => orLoop fuel lineCount e st1
      | (POut.err d, st1) => (POut.err d, st1)
      | (POut.panicked, st1) => (POut.panicked, st1)
      | (POut.fuelOut, st1) => (POut.fuelOut, st1)
termination_by structural a b c => a

def orLoop : Nat → Nat → Expr → PState → POut Expr × PState
  | 0, _, _, st => (POut.fuelOut, st)
  | fuel + 1, lineCount, e, st =>
      match matchTypes (fun tt => tt = TokenType.Or) st with
      | (some op, st1) =>
          match and fuel lineCount st1 with
          | (POut.ok right, st2) =>
              let (i, st3) := st2.nextIdStep
              orLoop fuel lineCount (Expr.mk i (ExprKind.Logical e op right)) st3
          | (POut.err d, st2) => (POut.err d, st2)
          | (POut.panicked, st2) => (POut.panicked, st2)
          | (POut.fuelOut, st2) => (POut.fuelOut, st2)
      | (none, st1) => (POut.ok e, st1)

termination_by structural a b c d => a
/-- parser.rs and; its right operand is parsed by a recursive call to and
itself, exactly as in the source. -/
def and : Nat → Nat → PState → POut Expr × PState
  | 0, _, st => (POut.fuelOut, st)
  | fuel + 1, lineCount, st =>
      match equality fuel lineCount st with
      | (POut.ok e, st1) => andLoop fuel lineCount e st1
      | (POut.err d, st1) => (POut.err d, st1)
      | (POut.panicked, st1) => (POut.panicked, st1)
      | (POut.fuelOut, st1) => (POut.fuelOut, st1)
termination_by structural a b c => a

def andLoop : Nat → Nat → Expr → PState → POut Expr × PState
  | 0, _, _, st => (POut.fuelOut, st)
  | fuel + 1, lineCount, e, st =>
      match matchTypes (fun tt => tt = TokenType.And) st with
      | (some op, st1) =>
          match and fuel lineCount st1 with
          | (POut.ok right, st2) =>
              let (i, st3) := st2.nextIdStep
              andLoop fuel lineCount (Expr.mk i (ExprKind.Logical e op right)) st3
          | (POut.err d, st2) => (POut.err d, st2)
          | (POut.panicked, st2) => (POut.panicked, st2)
          | (POut.fuelOut, st2) => (POut.fuelOut, st2)
      | (none, st1) => (POut.ok e, st1)

termination_by structural a b c d => a
/-- parser.rs equality. -/
def equality : Nat → Nat → PState → POut Expr × PState
  | 0, _, st => (POut.fuelOut, st)
  | fuel + 1, lineCount, st =>
      match comparison fuel lineCount st with
      | (POut.ok e, st1) => equalityLoop fuel lineCount e st1
      | (POut.err d, st1) => (POut.err d, st1)
      | (POut.panicked, st1) => (POut.panicked, st1)
      | (POut.fuelOut, st1) => (POut.fuelOut, st1)
termination_by structural a b c => a

def equalityLoop : Nat → Nat → Expr → PState → POut Expr × PState
  | 0, _, _, st => (POut.fuelOut, st)
  | fuel + 1, lineCount, e, st =>
      match matchTypes
          (fun tt => tt = TokenType.BangEqual || tt = TokenType.EqualEqual) st with
      | (some op, st1) =>
          match comparison fuel lineCount st1 with
          | (POut.ok right, st2) =>
              let (i, st3) := st2.nextIdStep
              equalityLoop fuel lineCount (Expr.mk i (ExprKind.Binary e op right)) st3
          | (POut.err d, st2) => (POut.err d, st2)
          | (POut.panicked, st2) => (POut.panicked, st2)
          | (POut.fuelOut, st2) => (POut.fuelOut, st2)
      | (none, st1) => (POut.ok e, st1)

termination_by structural a b c d => a
/-- parser.rs comparison. -/
def comparison : Nat → Nat → PState → POut Expr × PState
  | 0, _, st => (POut.fuelOut, st)
  | fuel + 1, lineCount, st =>
      match term fuel lineCount st with
      | (POut.ok e, st1) => comparisonLoop fuel lineCount e st1
      | (POut.err d, st1) => (POut.err d, st1)
      | (POut.panicked, st1) => (POut.panicked, st1)
      | (POut.fuelOut, st1) => (POut.fuelOut, st1)
termination_by structural a b c => a

def comparisonLoop : Nat → Nat → Expr → PState → POut Expr × PState
  | 0, _, _, st => (POut.fuelOut, st)
  | fuel + 1, lineCount, e, st =>
      match matchTypes
          (fun tt => tt = TokenType.Greater || tt = TokenType.GreaterEqual ||
            tt = TokenType.Less || tt = TokenType.LessEqual) st with
      | (some op, st1) =>
          match term fuel lineCount st1 with
          | (POut.ok right, st2) =>
              let (i, st3) := st2.nextIdStep
              comparisonLoop fuel lineCount (Expr.mk i (ExprKind.Binary e op right)) st3
          | (POut.err d, st2) => (POut.err d, st2)
          | (POut.panicked, st2) => (POut.panicked, st2)
          | (POut.fuelOut, st2) => (POut.fuelOut, st2)
      | (none, st1) => (POut.ok e, st1)

termination_by structural a b c d => a
/-- parser.rs term: the accumulated Result is carried through the loop, and
the fresh id is taken before it is unwrapped, exactly as in the source. -/
def term : Nat → Nat → PState → POut Expr × PState
  | 0, _, st => (POut.fuelOut, st)
  | fuel + 1, lineCount, st =>
      let (e, st1) := factor fuel lineCount st
      termLoop fuel lineCount e st1
termination_by structural a b c => a

def termLoop : Nat → Nat → POut Expr → PState → POut Expr × PState
  | 0, _, _, st => (POut.fuelOut, st)
  | fuel + 1, lineCount, acc, st =>
      match matchTypes (fun tt => tt = TokenType.Minus || tt = TokenType.Plus) st with
      | (some op, st1) =>
          let (right, st2) := factor fuel lineCount st1
          let (i, st3) := st2.nextIdStep
          match acc with
          | POut.ok l =>
              match right with
              | POut.ok r =>
                  termLoop fuel lineCount (POut.ok (Expr.mk i (ExprKind.Binary l op r))) st3
              | POut.err d => (POut.err d, st3)
              | POut.panicked => (POut.panicked, st3)
              | POut.fuelOut => (POut.fuelOut, st3)
          | POut.err d => (POut.err d, st3)
          | POut.panicked => (POut.panicked, st3)
          | POut.fuelOut => (POut.fuelOut, st3)
      | (none, st1) => (acc, st1)

termination_by structural a b c d => a
/-- parser.rs factor, with the same Result-carrying loop as term. -/
def factor : Nat → Nat → PState → POut Expr × PState
  | 0, _, st => (POut.fuelOut, st)
  | fuel + 1, lineCount, st =>
      let (e, st1) := unary fuel lineCount st
      factorLoop fuel lineCount e st1
termination_by structural a b c => a

def factorLoop : Nat → Nat → POut Expr → PState → POut Expr × PState
  | 0, _, _, st => (POut.fuelOut, st)
  | fuel + 1, lineCount, acc, st =>
      match matchTypes (fun tt => tt = TokenType.Slash || tt = TokenType.Star) st with
      | (some op, st1) =>
          let (right, st2) := unary fuel lineCount st1
          let (i, st3) := st2.nextIdStep
          match acc with
          | POut.ok l =>
              match right with
              | POut.ok r =>
                  factorLoop fuel lineCount (POut.ok (Expr.mk i (ExprKind.Binary l op r))) st3
              | POut.err d => (POut.err d, st3)
              | POut.panicked => (POut.panicked, st3)
              | POut.fuelOut => (POut.fuelOut, st3)
          | POut.err d => (POut.err d, st3)
          | POut.panicked => (POut.panicked, st3)
          | POut.fuelOut => (POut.fuelOut, st3)
      | (none, st1) => (acc, st1)

termination_by structural a b c d => a
/-- parser.rs unary: the fresh id is taken before the operand Result is
unwrapped, exactly as in the source. -/
def unary : Nat → Nat → PState → POut Expr × PState
  | 0, _, st => (POut.fuelOut, st)
  | fuel + 1, lineCount, st =>
      match matchTypes (fun tt => tt = TokenType.Bang || tt = TokenType.Minus) st with
      | (some op, st1) =>
          let (right, st2) := unary fuel lineCount st1
          let (i, st3) := st2.nextIdStep
          match right with
          | POut.ok r => (POut.ok (Expr.mk i (ExprKind.Unary op r)), st3)
          | POut.err d => (POut.err d, st3)
          | POut.panicked => (POut.panicked, st3)
          | POut.fuelOut => (POut.fuelOut, st3)
      | (none, st1) => call fuel lineCount st1

termination_by structural a b c => a
/-- parser.rs call: a primary followed by a postfix loop that continues
only on a left parenthesis. -/
def call : Nat → Nat → PState → POut Expr × PState
  | 0, _, st => (POut.fuelOut, st)
  | fuel + 1, lineCount, st =>
      match primary fuel lineCount st with
      | (POut.ok e, st1) => callLoop fuel lineCount e st1
      | (POut.err d, st1) => (POut.err d, st1)
      | (POut.panicked, st1) => (POut.panicked, st1)
      | (POut.fuelOut, st1) => (POut.fuelOut, st1)

termination_by structural a b c => a
/-- The postfix loop of parser.rs call. -/
def callLoop : Nat → Nat → Expr → PState → POut Expr × PState
  | 0, _, _, st => (POut.fuelOut, st)
  | fuel + 1, lineCount, e, st =>
      match matchTypes (fun tt => tt = TokenType.LeftParen) st with
      | (some _, st1) =>
          match finish_call fuel lineCount e st1 with
          | (POut.ok e1, st2) => callLoop fuel lineCount e1 st2
          | (POut.err d, st2) => (POut.err d, st2)
          | (POut.panicked, st2) => (POut.panicked, st2)
          | (POut.fuelOut, st2) => (POut.fuelOut, st2)
      | (none, st1) => (POut.ok e, st1)

termination_by structural a b c d => a
/-- parser.rs finish_call. -/
def finish_call : Nat → Nat → Expr → PState → POut Expr × PState
  | 0, _, _, st => (POut.fuelOut, st)
  | fuel + 1, lineCount, callee, st =>
      let (ar, st1) :=
        if ! check TokenType.RightParen st then argsLoop fuel lineCount st []
        else (POut.ok [], st)
      match ar with
      | POut.ok arguments =>
          match consume TokenType.RightParen
              ("Expected \x27)\x27 after arguments, instead found end of file.")
              ("Expected \x27)\x27 after arguments.") lineCount st1 with
          | (POut.ok paren, st2) =>
              let (i, st3) := st2.nextIdStep
              (POut.ok (Expr.mk i (ExprKind.Call callee paren arguments)), st3)
          | (POut.err d, st2) => (POut.err d, st2)
          | (POut.panicked, st2) => (POut.panicked, st2)
          | (POut.fuelOut, st2) => (POut.fuelOut, st2)
      | POut.err d => (POut.err d, st1)
      | POut.panicked => (POut.panicked, st1)
      | POut.fuelOut => (POut.fuelOut, st1)

termination_by structural a b c d => a
/-- The argument loop of parser.rs finish_call, with the 255-argument
report that continues parsing. -/
def argsLoop : Nat → Nat → PState → List Expr → POut (List Expr) × PState
  | 0, _, st, _ => (POut.fuelOut, st)
  | fuel + 1, lineCount, st, acc =>
      let st0 := if acc.length ≥ 255 then report_error st else st
      match expression fuel lineCount st0 with
      | (POut.ok a, st1) =>
          let acc1 := acc ++ [a]
          match matchTypes (fun tt => tt = TokenType.Comma) st1 with
          | (some _, st2) => argsLoop fuel lineCount st2 acc1
          | (none, st2) => (POut.ok acc1, st2)
      | (POut.err d, st1) => (POut.err d, st1)
      | (POut.panicked, st1) => (POut.panicked, st1)
      | (POut.fuelOut, st1) => (POut.fuelOut, st1)

termination_by structural a b c d => a
/-- parser.rs primary: true/false/nil, number and string literals,
identifiers and parenthesized expressions; any other token (including
this, super and dot) is the error Expected expression. -/
def primary : Nat → Nat → PState → POut Expr × PState
  | 0, _, st => (POut.fuelOut, st)
  | fuel + 1, lineCount, st =>
      match st.toks with
      | [] =>
          (POut.err (generate_eof lineCount,
            "Expected expression, instead found end of file."), st)
      | t :: rest =>
          let st1 : PState := { st with toks := rest }
          match t.typ with
          | TokenType.False =>
              let (i, st2) := st1.nextIdStep
              (POut.ok (Expr.mk i (ExprKind.LiteralExpr (Literal.BoolLiteral false))), st2)
          | TokenType.True =>
              let (i, st2) := st1.nextIdStep
              (POut.ok (Expr.mk i (ExprKind.LiteralExpr (Literal.BoolLiteral true))), st2)
          | TokenType.Nil =>
              let (i, st2) := st1.nextIdStep
              (POut.ok (Expr.mk i (ExprKind.LiteralExpr Literal.None)), st2)
          | TokenType.Number =>
              let (i, st2) := st1.nextIdStep
              (POut.ok (Expr.mk i (ExprKind.LiteralExpr t.literal)), st2)
          | TokenType.StringToken =>
              let (i, st2) := st1.nextIdStep
              (POut.ok (Expr.mk i (ExprKind.LiteralExpr t.literal)), st2)
          | TokenType.Identifier =>
              let (i, st2) := st1.nextIdStep
              (POut.ok (Expr.mk i (ExprKind.Variable t)), st2)
          | TokenType.LeftParen =>
              let (er, st2) := expression fuel lineCount st1
              match st2.toks with
              | nt :: rest2 =>
                  if nt.typ = TokenType.RightParen then
                    let (i, st3) := PState.nextIdStep { st2 with toks := rest2 }
                    match er with
                    | POut.ok e => (POut.ok (Expr.mk i (ExprKind.Grouping e)), st3)
                    | POut.err d => (POut.err d, st3)
                    | POut.panicked => (POut.panicked, st3)
                    | POut.fuelOut => (POut.fuelOut, st3)
                  else
                    let (d, st3) := perror lineCount { st2 with toks := rest2 }
                      ("Expected \x27)\x27 after expression.")
                    (POut.err d, st3)
              | [] =>
                  let (d, st3) := perror lineCount st2
                    ("Expected \x27)\x27 after expression, instead found end of file.")
                  (POut.err d, st3)
          | _ => (POut.err (t, "Expected expression."), st1)
termination_by structural a b c => a

end

/-- Result of parser.rs parse for a whole token sequence. -/
inductive ParseResult : Type where
  | ok (stmts : List Stmt)
  | err (errs : List (Token × String))
  | panicked
  | fuelOut

/-- The declaration loop of parser.rs parse. -/
def parseLoop : Nat → Nat → PState → List Stmt → List (Token × String) → ParseResult
  | 0, _, _, _, _ => ParseResult.fuelOut
  | fuel + 1, lineCount, st, stmts, errs =>
      match st.toks.head? with
      | none =>
          if errs.isEmpty && ! st.hadErr then ParseResult.ok stmts
          else ParseResult.err errs
      | some _ =>
          match declaration fuel lineCount st with
          | (POut.ok s, st1) => parseLoop fuel lineCount st1 (stmts ++ [s]) errs
          | (POut.err e, st1) => parseLoop fuel lineCount st1 stmts (errs ++ [e])
          | (POut.panicked, _) => ParseResult.panicked
          | (POut.fuelOut, _) => ParseResult.fuelOut

/-- parser.rs parse. -/
def parse (fuel : Nat) (tokens : List Token) : ParseResult :=
  let lineCount :=
    match tokens.getLast? with
    | some t => t.line
    | none => 0
  parseLoop fuel lineCount { nextId := 0, toks := tokens, hadErr := false } [] []

/-- resolver.rs FunctionType. -/
inductive FunctionType : Type where
  | Function
  | Initializer
  | Method
deriving DecidableEq

/-- resolver.rs ClassType. -/
inductive ClassType : Type where
  | Class
  | Subclass
deriving DecidableEq

/-- The resolver state: the environment (for its lexical scopes and its
resolution table) plus the function-kind stack, the class-kind stack and
the had_error flag that resolver.rs threads as &mut arguments. -/
structure RState : Type where
  env : Environment
  fstack : List FunctionType
  cstack : List ClassType
  hadErr : Bool

/-- resolver.rs begin_scope. -/
def begin_scope (env : Environment) : Environment :=
  env.setScopes (env.scopes ++ [[]])

/-- resolver.rs end_scope. -/
def end_scope (env : Environment) : Environment :=
  env.setScopes env.scopes.dropLast

/-- resolver.rs declare: in the innermost lexical scope (if any), report a
re-declaration and mark the name declared-but-undefined. -/
def declare (name : Token) (env : Environment) (hadErr : Bool) :
    Environment × Bool :=
  match env.scopes.getLast? with
  | none => (env, hadErr)
  | some scope =>
      let hadErr1 := if assocContains scope name.lexeme then true else hadErr
      (env.setScopes (env.scopes.dropLast ++ [assocInsert scope name.lexeme false]),
       hadErr1)

/-- resolver.rs define: mark the name defined in the innermost scope. -/
def define (name : Token) (env : Environment) : Environment :=
  match env.scopes.getLast? with
  | none => env
  | some scope =>
      env.setScopes (env.scopes.dropLast ++ [assocInsert scope name.lexeme true])

/-- The loop of resolver.rs resolve_local over the reversed scope stack,
carrying the index from the innermost scope. -/
def resolveLocalGo (id : Nat) (lex : String) :
    List (List (String × Bool)) → Nat → Environment → Environment
  | [], _, env => env
  | s :: rest, i, env =>
      if assocContains s lex then resolve id i env
      else resolveLocalGo id lex rest (i + 1) env

/-- resolver.rs resolve_local: walk the scope stack from innermost out and
record the index of the first scope containing the name; record nothing
when no scope contains it. -/
def resolve_local (id : Nat) (name : Token) (env : Environment) : Environment :=
  resolveLocalGo id name.lexeme env.scopes.reverse 0 env

mutual

/-- resolver.rs Resolver for Stmt. -/
def resolveStmt : Nat → Stmt → RState → POut Unit × RState
  | 0, _, st => (POut.fuelOut, st)
  | fuel + 1, s, st =>
      match s with
      | Stmt.Block statements =>
          let st1 := { st with env := begin_scope st.env }
          match resolveStmts fuel statements st1 with
          | (POut.ok _, st2) => (POut.ok (), { st2 with env := end_scope st2.env })
          | other => other
      | Stmt.Class name superclass methods =>
          let st1 := { st with cstack := st.cstack ++ [ClassType.Class] }
          let (env2, he2) := declare name st1.env st1.hadErr
          let st2 := { st1 with env := define name env2, hadErr := he2 }
          let (sr, st3) :=
            match superclass with
            | some expr =>
                let st3a := { st2 with
                  cstack := st2.cstack.dropLast ++ [ClassType.Subclass] }
                match expr.kind with
                | ExprKind.Variable superclassName =>
                    let st3b :=
                      if name.lexeme = superclassName.lexeme then
                        { st3a with hadErr := true }
                      else st3a
                    match resolveExpr fuel expr st3b with
                    | (POut.ok _, st3c) =>
                        let env3 := begin_scope st3c.env
                        let env4 :=
                          match env3.scopes.getLast? with
                          | some scope =>
                              env3.setScopes (env3.scopes.dropLast ++
                                [assocInsert scope "super" true])
                          | none => env3
                        (POut.ok (), { st3c with env := env4 })
                    | other => other
                | _ => (POut.panicked, st3a)
            | none => (POut.ok (), st2)
          match sr with
          | POut.ok _ =>
              let env5 := begin_scope st3.env
              let env6 :=
                match env5.scopes.getLast? with
                | some scope =>
                    env5.setScopes (env5.scopes.dropLast ++
                      [assocInsert scope "this" true])
                | none => env5
              match resolveMethods fuel methods { st3 with env := env6 } with
              | (POut.ok _, st4) =>
                  let env7 := end_scope st4.env
                  let env8 :=
                    match superclass with
                    | some _ => end_scope env7
                    | none => env7
                  (POut.ok (), { st4 with env := env8, cstack := st4.cstack.dropLast })
              | other => other
          | POut.err e => (POut.err e, st3)
          | POut.panicked => (POut.panicked, st3)
          | POut.fuelOut => (POut.fuelOut, st3)
      | Stmt.Expression e => resolveExpr fuel e st
      | Stmt.Function fn =>
          let (env1, he1) := declare fn.name st.env st.hadErr
          let st1 : RState :=
            { env := define fn.name env1, hadErr := he1,
              fstack := st.fstack ++ [FunctionType.Function], cstack := st.cstack }
          match resolve_function fuel fn st1 with
          | (POut.ok _, st2) => (POut.ok (), { st2 with fstack := st2.fstack.dropLast })
          | other => other
      | Stmt.If condition thenBranch elseBranch =>
          match resolveExpr fuel condition st with
          | (POut.ok _, st1) =>
              match resolveStmt fuel thenBranch st1 with
              | (POut.ok _, st2) =>
                  match elseBranch with
                  | some eb => resolveStmt fuel eb st2
                  | none => (POut.ok (), st2)
              | other => other
          | other => other
      | Stmt.Print e => resolveExpr fuel e st
      | Stmt.Return _keyword value =>
          let st1 := if st.fstack.isEmpty then { st with hadErr := true } else st
          match value with
          | some expr =>
              let st2 :=
                if st1.fstack.getLast? = some FunctionType.Initializer then
                  { st1 with hadErr := true }
                else st1
              resolveExpr fuel expr st2
          | none => (POut.ok (), st1)
      | Stmt.Var name initializer =>
          let (env1, he1) := declare name st.env st.hadErr
          let st1 := { st with env := env1, hadErr := he1 }
          match initializer with
          | some expr =>
              match resolveExpr fuel expr st1 with
              | (POut.ok _, st2) => (POut.ok (), { st2 with env := define name st2.env })
              | other => other
          | none => (POut.ok (), { st1 with env := define name st1.env })
      | Stmt.While condition body =>
          match resolveExpr fuel condition st with
          | (POut.ok _, st1) => resolveStmt fuel body st1
          | other => other

/-- resolver.rs Resolver for Expr. -/
def resolveExpr : Nat → Expr → RState → POut Unit × RState
  | 0, _, st => (POut.fuelOut, st)
  | fuel + 1, e, st =>
      match e.kind with
      | ExprKind.Assign name value =>
          match resolveExpr fuel value st with
          | (POut.ok _, st1) =>
              (POut.ok (), { st1 with env := resolve_local e.id name st1.env })
          | other => other
      | ExprKind.Binary left _ right =>
          match resolveExpr fuel left st with
          | (POut.ok _, st1) => resolveExpr fuel right st1
          | other => other
      | ExprKind.Call callee _ arguments =>
          match resolveExpr fuel callee st with
          | (POut.ok _, st1) => resolveExprs fuel arguments st1
          | other => other
      | ExprKind.Get object _ => resolveExpr fuel object st
      | ExprKind.Grouping inner => resolveExpr fuel inner st
      | ExprKind.LiteralExpr _ => (POut.ok (), st)
      | ExprKind.Logical left _ right =>
          match resolveExpr fuel left st with
          | (POut.ok _, st1) => resolveExpr fuel right st1
          | other => other
      | ExprKind.SetExpr object _ value =>
          match resolveExpr fuel value st with
          | (POut.ok _, st1) => resolveExpr fuel object st1
          | other => other
      | ExprKind.Super keyword _ =>
          let st1 :=
            match st.cstack.getLast? with
            | none => { st with hadErr := true }
            | some ClassType.Class => { st with hadErr := true }
            | some ClassType.Subclass => st
          (POut.ok (), { st1 with env := resolve_local e.id keyword st1.env })
      | ExprKind.This keyword =>
          if st.cstack.isEmpty then (POut.ok (), { st with hadErr := true })
          else (POut.ok (), { st with env := resolve_local e.id keyword st.env })
      | ExprKind.Unary _ right => resolveExpr fuel right st
      | ExprKind.Variable name =>
          match st.env.scopes.getLast? with
          | some scope =>
              if assocGet scope name.lexeme = some false then
                (POut.err (name, "Can\x27t read local variable in its own initializer."), st)
              else (POut.ok (), { st with env := resolve_local e.id name st.env })
          | none => (POut.ok (), { st with env := resolve_local e.id name st.env })

/-- The argument loop of resolver.rs for ExprKind::Call. -/
def resolveExprs : Nat → List Expr → RState → POut Unit × RState
  | 0, _, st => (POut.fuelOut, st)
  | _ + 1, [], st => (POut.ok (), st)
  | fuel + 1, e :: rest, st =>
      match resolveExpr fuel e st with
      | (POut.ok _, st1) => resolveExprs fuel rest st1
      | other => other

/-- The statement loop of resolver.rs resolve_statements. -/
def resolveStmts : Nat → List Stmt → RState → POut Unit × RState
  | 0, _, st => (POut.fuelOut, st)
  | _ + 1, [], st => (POut.ok (), st)
  | fuel + 1, s :: rest, st =>
      match resolveStmt fuel s st with
      | (POut.ok _, st1) => resolveStmts fuel rest st1
      | other => other

/-- The method loop of resolver.rs for Stmt::Class: each method is resolved
with its function kind pushed (Initializer for methods named init). -/
def resolveMethods : Nat → List Function → RState → POut Unit × RState
  | 0, _, st => (POut.fuelOut, st)
  | _ + 1, [], st => (POut.ok (), st)
  | fuel + 1, m :: rest, st =>
      let decl :=
        if m.name.lexeme = "init" then FunctionType.Initializer else FunctionType.Method
      let st1 := { st with fstack := st.fstack ++ [decl] }
      match resolve_function fuel m st1 with
      | (POut.ok _, st2) =>
          resolveMethods fuel rest { st2 with fstack := st2.fstack.dropLast }
      | other => other

/-- resolver.rs resolve_function: a fresh scope holding the parameters,
then the body. -/
def resolve_function : Nat → Function → RState → POut Unit × RState
  | 0, _, st => (POut.fuelOut, st)
  | fuel + 1, fn, st =>
      let st1 := { st with env := begin_scope st.env }
      let st2 := fn.params.foldl
        (fun acc p =>
          let (env1, he1) := declare p acc.env acc.hadErr
          { acc with env := define p env1, hadErr := he1 })
        st1
      match resolveStmts fuel fn.body st2 with
      | (POut.ok _, st3) => (POut.ok (), { st3 with env := end_scope st3.env })
      | other => other

end

/-- resolver.rs resolve_statements as called from the driver. -/
def resolve_statements (fuel : Nat) (statements : List Stmt) (env : Environment)
    (hadErr : Bool) : POut Unit × RState :=
  resolveStmts fuel statements { env := env, fstack := [], cstack := [], hadErr := hadErr }

/-- Display of a non-integral f64, used only by the else branch of
stringify; the Rust shortest-roundtrip float formatting is not modelled
and no theorem below depends on this branch. -/
def floatDisplay : F64Val → String
  | F64Val.finite q => toString q
  | F64Val.posInf => "inf"
  | F64Val.negInf => "-inf"
  | F64Val.nan => "NaN"

/-- interpreter.rs stringify: an f64 with zero fractional part prints as
the decimal representation of its i64 cast, with no decimal point. -/
def stringify : Literal → String
  | Literal.BoolLiteral b => if b then "true" else "false"
  | Literal.CallableLiteral (Callable.mk _ _ kind) =>
      match kind with
      | CallableKind.Class c => c.name
      | CallableKind.Function decl _ _ => "<fn " ++ decl.name.lexeme ++ ">"
      | CallableKind.Native _ => "<native fn>"
  | Literal.F64 f =>
      if f64Eq (f64Fract f) (F64Val.finite 0) then toString (f64ToI64 f)
      else floatDisplay f
  | Literal.IdentifierLiteral s => s
  | Literal.InstanceLiteral i => i.cls.name ++ " instance"
  | Literal.StringLiteral s => s
  | Literal.None => "nil"

/-- interpreter.rs is_truthy. -/
def is_truthy : Literal → Bool
  | Literal.BoolLiteral b => b
  | Literal.None => false
  | _ => true

/-- interpreter.rs is_equal. -/
def is_equal : Literal → Literal → Bool
  | Literal.None, Literal.None => true
  | Literal.None, _ => false
  | Literal.BoolLiteral b1, Literal.BoolLiteral b2 => b1 = b2
  | Literal.F64 f1, Literal.F64 f2 => f64Eq f1 f2
  | Literal.IdentifierLiteral i1, Literal.IdentifierLiteral i2 => i1 = i2
  | Literal.StringLiteral s1, Literal.StringLiteral s2 => s1 = s2
  | _, _ => false

/-- interpreter.rs get_numeric_operands. -/
def get_numeric_operands (operator : Token) (left right : Literal) :
    Except (Token × String) (F64Val × F64Val) :=
  match left with
  | Literal.F64 l =>
      match right with
      | Literal.F64 r => Except.ok (l, r)
      | _ => Except.error (operator, "Operands must be numbers.")
  | _ => Except.error (operator, "Operands must be numbers.")

/-- interpreter.rs lookup_variable: a resolved id reads through the
resolution table (panicking like the unwraps in the source when the frame
or name is missing); an unresolved id reads the global frame, and a
missing global is the runtime error Unable to resolve global variable. -/
def lookup_variable (name : Token) (id : Nat) (env : Environment) : POut Literal :=
  match assocGet env.locals id with
  | some distance =>
      match env.get_at distance name.lexeme with
      | some (some v) => POut.ok v
      | _ => POut.panicked
  | none =>
      match env.layers.head? with
      | none => POut.panicked
      | some g =>
          match assocGet g name.lexeme with
          | some v => POut.ok v
          | none =>
              POut.err (name,
                "Unable to resolve global variable \x27" ++ name.lexeme ++ "\x27.")

/-- instance.rs Instance::get: fields first, then the method chain, binding
a found method to the instance. -/
def Instance.get (i : Instance) (name : Token) : POut Literal :=
  match assocGet i.fields name.lexeme with
  | some v => POut.ok v
  | none =>
      match i.cls.find_method name.lexeme with
      | some m =>
          match m.bind i with
          | some m2 => POut.ok (Literal.CallableLiteral m2)
          | none => POut.panicked
      | none =>
          POut.err (name, "Undefined property \x27" ++ name.lexeme ++ "\x27.")

/-- Parameter binding in callable.rs Callable::call: define each zipped
(parameter, argument) pair in the innermost scope. -/
def defineAll (env : Environment) : List (String × Literal) → Option Environment
  | [] => some env
  | (n, v) :: rest =>
      match env.define n v with
      | some env1 => defineAll env1 rest
      | none => none

/-- The method-map loop of interpreter.rs for Stmt::Class: each method is
compiled to a function callable closing over the current environment, with
the initializer flag for methods named init. -/
def methodsFold (ms : List Function) (env : Environment) : List (String × Callable) :=
  ms.foldl
    (fun acc m =>
      assocInsert acc m.name.lexeme
        (Callable.new_function m env (m.name.lexeme == "init")))
    []

/-- The native-function arm of callable.rs Callable::call.  The clock value
is not modelled (no claim depends on it); string parsing in int is the
idealized decimal parser. -/
def nativeCall (nm : String) (arguments : List Literal) (token : Token) :
    POut Literal :=
  if nm = "clock" then POut.ok (Literal.F64 (F64Val.finite 0))
  else if nm = "getchar" then
    match arguments with
    | [Literal.StringLiteral s, Literal.F64 i] =>
        if f64Eq (f64Fract i) (F64Val.finite 0) && f64Ge i (F64Val.finite 0) then
          match s.data.get? (f64ToI64 i).toNat with
          | some c => POut.ok (Literal.StringLiteral (String.singleton c))
          | none => POut.err (token, "String index out of range.")
        else POut.err (token, "String index is invalid.")
    | _ =>
        POut.err (token,
          "Invalid function arguments, \x27getchar\x27 accepts a string and an index.")
  else if nm = "int" then
    match arguments.head? with
    | none => POut.panicked
    | some (Literal.F64 n) => POut.ok (Literal.F64 (F64Val.finite ((f64ToI64 n : ℤ) : ℚ)))
    | some (Literal.StringLiteral s) =>
        match parseDecimalF64 s with
        | F64Val.nan => POut.err (token, "Unable to parse provided string as a number.")
        | v => POut.ok (Literal.F64 v)
    | some _ =>
        POut.err (token,
          "Invalid function arguments, \x27int\x27 accepts a single number or string.")
  else POut.panicked

mutual

/-- interpreter.rs Interpreter for Stmt: every successful arm yields
Literal::None; a return statement is the Err signal carrying the value in
the lexeme RETURN token. -/
def Stmt.interpret : Nat → Stmt → Environment → List String →
    POut Literal × Environment × List String
  | 0, _, env, out => (POut.fuelOut, env, out)
  | fuel + 1, s, env, out =>
      match s with
      | Stmt.Block statements =>
          match execute_block fuel statements env out with
          | (POut.ok _, env1, out1) => (POut.ok Literal.None, env1, out1)
          | (POut.err e, env1, out1) => (POut.err e, env1, out1)
          | (POut.panicked, env1, out1) => (POut.panicked, env1, out1)
          | (POut.fuelOut, env1, out1) => (POut.fuelOut, env1, out1)
      | Stmt.Class name superclass methods =>
          let (sr, env1, out1) :=
            match superclass with
            | some expr =>
                match Expr.interpret fuel expr env out with
                | (POut.ok v, e1, o1) =>
                    match v with
                    | Literal.CallableLiteral (Callable.mk _ _ (CallableKind.Class c)) =>
                        (POut.ok (some c), e1, o1)
                    | _ =>
                        match expr.kind with
                        | ExprKind.Variable superclassName =>
                            (POut.err (superclassName, "Superclass must be a class."), e1, o1)
                        | _ => (POut.panicked, e1, o1)
                | (POut.err e, e1, o1) => (POut.err e, e1, o1)
                | (POut.panicked, e1, o1) => (POut.panicked, e1, o1)
                | (POut.fuelOut, e1, o1) => (POut.fuelOut, e1, o1)
            | none => (POut.ok none, env, out)
          match sr with
          | POut.ok superclassVal =>
              match env1.define name.lexeme Literal.None with
              | none => (POut.panicked, env1, out1)
              | some env2 =>
                  let scScope : Option Environment :=
                    match superclassVal with
                    | some value =>
                        (env2.add_scope).define "super"
                          (Literal.CallableLiteral
                            (Callable.new_class value.name value.superclass
                              value.methods))
                    | none => some env2
                  match scScope with
                  | none => (POut.panicked, env2, out1)
                  | some env3 =>
                      let methodMap := methodsFold methods env3
                      let env4 :=
                        match superclassVal with
                        | some _ => env3.del_scope
                        | none => env3
                      let classCallable :=
                        Callable.new_class name.lexeme superclassVal methodMap
                      match env4.assign name (Literal.CallableLiteral classCallable) with
                      | Except.ok (_, env5) => (POut.ok Literal.None, env5, out1)
                      | Except.error e => (POut.err e, env4, out1)
          | POut.err e => (POut.err e, env1, out1)
          | POut.panicked => (POut.panicked, env1, out1)
          | POut.fuelOut => (POut.fuelOut, env1, out1)
      | Stmt.Expression expression =>
          match Expr.interpret fuel expression env out with
          | (POut.ok _, env1, out1) => (POut.ok Literal.None, env1, out1)
          | (POut.err e, env1, out1) => (POut.err e, env1, out1)
          | (POut.panicked, env1, out1) => (POut.panicked, env1, out1)
          | (POut.fuelOut, env1, out1) => (POut.fuelOut, env1, out1)
      | Stmt.Function fn =>
          let f := Literal.CallableLiteral (Callable.new_function fn env false)
          match env.define fn.name.lexeme f with
          | some env1 => (POut.ok Literal.None, env1, out)
          | none => (POut.panicked, env, out)
      | Stmt.If condition thenBranch elseBranch =>
          match Expr.interpret fuel condition env out with
          | (POut.ok c, env1, out1) =>
              if is_truthy c then
                match Stmt.interpret fuel thenBranch env1 out1 with
                | (POut.ok _, env2, out2) => (POut.ok Literal.None, env2, out2)
                | other => other
              else
                match elseBranch with
                | some eb =>
                    match Stmt.interpret fuel eb env1 out1 with
                    | (POut.ok _, env2, out2) => (POut.ok Literal.None, env2, out2)
                    | other => other
                | none => (POut.ok Literal.None, env1, out1)
          | other => other
      | Stmt.Print expression =>
          match Expr.interpret fuel expression env out with
          | (POut.ok v, env1, out1) =>
              (POut.ok Literal.None, env1, out1 ++ [stringify v])
          | other => other
      | Stmt.Return keyword value =>
          let (vr, env1, out1) :=
            match value with
            | some expr => Expr.interpret fuel expr env out
            | none => (POut.ok Literal.None, env, out)
          match vr with
          | POut.ok v =>
              (POut.err (Token.mk TokenType.Return "RETURN" v keyword.line, ""),
               env1, out1)
          | other => (other, env1, out1)
      | Stmt.Var name initializer =>
          let (vr, env1, out1) :=
            match initializer with
            | some expr => Expr.interpret fuel expr env out
            | none => (POut.ok Literal.None, env, out)
          match vr with
          | POut.ok v =>
              match env1.define name.lexeme v with
              | some env2 => (POut.ok Literal.None, env2, out1)
              | none => (POut.panicked, env1, out1)
          | other => (other, env1, out1)
      | Stmt.While condition body =>
          match Expr.interpret fuel condition env out with
          | (POut.ok c, env1, out1) =>
              if is_truthy c then
                match Stmt.interpret fuel body env1 out1 with
                | (POut.ok _, env2, out2) =>
                    Stmt.interpret fuel (Stmt.While condition body) env2 out2
                | other => other
              else (POut.ok Literal.None, env1, out1)
          | other => other

/-- interpreter.rs Interpreter for Expr. -/
def Expr.interpret : Nat → Expr → Environment → List String →
    POut Literal × Environment × List String
  | 0, _, env, out => (POut.fuelOut, env, out)
  | fuel + 1, e, env, out =>
      match e.kind with
      | ExprKind.Assign name value =>
          match Expr.interpret fuel value env out with
          | (POut.ok v, env1, out1) =>
              match assocGet env1.locals e.id with
              | some distance =>
                  match env1.assign_at distance name v with
                  | some (v1, env2) => (POut.ok v1, env2, out1)
                  | none => (POut.panicked, env1, out1)
              | none =>
                  match env1.assign_global name v with
                  | some (Except.ok (v1, env2)) => (POut.ok v1, env2, out1)
                  | some (Except.error d) => (POut.err d, env1, out1)
                  | none => (POut.panicked, env1, out1)
          | other => other
      | ExprKind.Binary left operator right =>
          match Expr.interpret fuel left env out with
          | (POut.ok l, env1, out1) =>
              match Expr.interpret fuel right env1 out1 with
              | (POut.ok r, env2, out2) =>
                  let res : POut Literal :=
                    match operator.typ with
                    | TokenType.Plus =>
                        match l, r with
                        | Literal.F64 f1, Literal.F64 f2 =>
                            POut.ok (Literal.F64 (f64Add f1 f2))
                        | Literal.StringLiteral s1, Literal.StringLiteral s2 =>
                            POut.ok (Literal.StringLiteral (s1 ++ s2))
                        | _, _ =>
                            POut.err (operator,
                              "Operands must be two numbers or two strings.")
                    | TokenType.Minus =>
                        match get_numeric_operands operator l r with
                        | Except.ok (f1, f2) => POut.ok (Literal.F64 (f64Sub f1 f2))
                        | Except.error d => POut.err d
                    | TokenType.Slash =>
                        match get_numeric_operands operator l r with
                        | Except.ok (f1, f2) => POut.ok (Literal.F64 (f64Div f1 f2))
                        | Except.error d => POut.err d
                    | TokenType.Star =>
                        match get_numeric_operands operator l r with
                        | Except.ok (f1, f2) => POut.ok (Literal.F64 (f64Mul f1 f2))
                        | Except.error d => POut.err d
                    | TokenType.Greater =>
                        match get_numeric_operands operator l r with
                        | Except.ok (f1, f2) => POut.ok (Literal.BoolLiteral (f64Gt f1 f2))
                        | Except.error d => POut.err d
                    | TokenType.GreaterEqual =>
                        match get_numeric_operands operator l r with
                        | Except.ok (f1, f2) => POut.ok (Literal.BoolLiteral (f64Ge f1 f2))
                        | Except.error d => POut.err d
                    | TokenType.Less =>
                        match get_numeric_operands operator l r with
                        | Except.ok (f1, f2) => POut.ok (Literal.BoolLiteral (f64Lt f1 f2))
                        | Except.error d => POut.err d
                    | TokenType.LessEqual =>
                        match get_numeric_operands operator l r with
                        | Except.ok (f1, f2) => POut.ok (Literal.BoolLiteral (f64Le f1 f2))
                        | Except.error d => POut.err d
                    | TokenType.BangEqual =>
                        POut.ok (Literal.BoolLiteral (! is_equal l r))
                    | TokenType.EqualEqual =>
                        POut.ok (Literal.BoolLiteral (is_equal l r))
                    | _ => POut.err (operator, "Expected a binary operator.")
                  (res, env2, out2)
              | other => other
          | other => other
      | ExprKind.Call callee paren arguments =>
          match Expr.interpret fuel callee env out with
          | (POut.ok c, env1, out1) =>
              match interpretArgs fuel arguments env1 out1 with
              | (POut.ok funcArgs, env2, out2) =>
                  match c with
                  | Literal.CallableLiteral fn =>
                      if funcArgs.length ≠ fn.arity then
                        (POut.err (paren,
                          "Expected " ++ toString fn.arity ++ " arguments but got " ++
                            toString funcArgs.length ++ "."), env2, out2)
                      else
                        match Callable.call fuel fn funcArgs paren out2 with
                        | (r, out3) => (r, env2, out3)
                  | _ =>
                      (POut.err (paren, "Can only call functions and classes."),
                       env2, out2)
              | (POut.err d, env2, out2) => (POut.err d, env2, out2)
              | (POut.panicked, env2, out2) => (POut.panicked, env2, out2)
              | (POut.fuelOut, env2, out2) => (POut.fuelOut, env2, out2)
          | other => other
      | ExprKind.Get object name =>
          match Expr.interpret fuel object env out with
          | (POut.ok v, env1, out1) =>
              match v with
              | Literal.InstanceLiteral i => (i.get name, env1, out1)
              | _ => (POut.err (name, "Only instances have properties."), env1, out1)
          | other => other
      | ExprKind.Grouping expression => Expr.interpret fuel expression env out
      | ExprKind.LiteralExpr value => (POut.ok value, env, out)
      | ExprKind.Logical left operator right =>
          match Expr.interpret fuel left env out with
          | (POut.ok l, env1, out1) =>
              if operator.typ = TokenType.Or then
                if is_truthy l then (POut.ok l, env1, out1)
                else Expr.interpret fuel right env1 out1
              else
                if ! is_truthy l then (POut.ok l, env1, out1)
                else Expr.interpret fuel right env1 out1
          | other => other
      | ExprKind.SetExpr object name value =>
          match Expr.interpret fuel object env out with
          | (POut.ok ov, env1, out1) =>
              match ov with
              | Literal.InstanceLiteral i =>
                  match Expr.interpret fuel value env1 out1 with
                  | (POut.ok v, env2, out2) =>
                      let _updated := i.set name v
                      (POut.ok v, env2, out2)
                  | other => other
              | _ => (POut.err (name, "Only instances have fields."), env1, out1)
          | other => other
      | ExprKind.Super _keyword method =>
          match assocGet env.locals e.id with
          | none => (POut.panicked, env, out)
          | some distance =>
              match env.get_at distance "super" with
              | some (some (Literal.CallableLiteral
                  (Callable.mk _ _ (CallableKind.Class superclass)))) =>
                  if distance = 0 then (POut.panicked, env, out)
                  else
                    match env.get_at (distance - 1) "this" with
                    | some (some (Literal.InstanceLiteral object)) =>
                        match superclass.find_method method.lexeme with
                        | some m =>
                            match m.bind object with
                            | some m2 =>
                                (POut.ok (Literal.CallableLiteral m2), env, out)
                            | none => (POut.panicked, env, out)
                        | none =>
                            (POut.err (method,
                              "Undefined property \x27" ++ method.lexeme ++ "\x27."),
                             env, out)
                    | _ => (POut.panicked, env, out)
              | _ => (POut.panicked, env, out)
      | ExprKind.This keyword => (lookup_variable keyword e.id env, env, out)
      | ExprKind.Unary operator right =>
          match Expr.interpret fuel right env out with
          | (POut.ok r, env1, out1) =>
              match operator.typ with
              | TokenType.Bang =>
                  (POut.ok (Literal.BoolLiteral (! is_truthy r)), env1, out1)
              | TokenType.Minus =>
                  match r with
                  | Literal.F64 v => (POut.ok (Literal.F64 (f64Neg v)), env1, out1)
                  | _ => (POut.err (operator, "Operand must be a number."), env1, out1)
              | _ => (POut.err (operator, "Expected a unary operator."), env1, out1)
          | other => other
      | ExprKind.Variable name => (lookup_variable name e.id env, env, out)

/-- interpreter.rs execute_block: push a scope, run the statements, pop the
scope; the early return of the question-mark operator skips the pop. -/
def execute_block : Nat → List Stmt → Environment → List String →
    POut Unit × Environment × List String
  | 0, _, env, out => (POut.fuelOut, env, out)
  | fuel + 1, statements, env, out =>
      match execute_statements fuel statements env.add_scope out with
      | (POut.ok _, env1, out1) => (POut.ok (), env1.del_scope, out1)
      | other => other

/-- interpreter.rs execute_statements. -/
def execute_statements : Nat → List Stmt → Environment → List String →
    POut Unit × Environment × List String
  | 0, _, env, out => (POut.fuelOut, env, out)
  | _ + 1, [], env, out => (POut.ok (), env, out)
  | fuel + 1, s :: rest, env, out =>
      match Stmt.interpret fuel s env out with
      | (POut.ok _, env1, out1) => execute_statements fuel rest env1 out1
      | (POut.err e, env1, out1) => (POut.err e, env1, out1)
      | (POut.panicked, env1, out1) => (POut.panicked, env1, out1)
      | (POut.fuelOut, env1, out1) => (POut.fuelOut, env1, out1)

/-- The argument loop of interpreter.rs for ExprKind::Call: strict
left-to-right evaluation. -/
def interpretArgs : Nat → List Expr → Environment → List String →
    POut (List Literal) × Environment × List String
  | 0, _, env, out => (POut.fuelOut, env, out)
  | _ + 1, [], env, out => (POut.ok [], env, out)
  | fuel + 1, a :: rest, env, out =>
      match Expr.interpret fuel a env out with
      | (POut.ok v, env1, out1) =>
          match interpretArgs fuel rest env1 out1 with
          | (POut.ok vs, env2, out2) => (POut.ok (v :: vs), env2, out2)
          | other => other
      | (POut.err e, env1, out1) => (POut.err e, env1, out1)
      | (POut.panicked, env1, out1) => (POut.panicked, env1, out1)
      | (POut.fuelOut, env1, out1) => (POut.fuelOut, env1, out1)

/-- callable.rs Callable::call.  For a class, construct an instance and run
a bound init when present.  For a function, push a scope on the captured
closure, bind parameters and run the body; the RETURN signal is converted
to a value at this boundary, and in the initializer case the bound this is
read back at distance 0 without the body scope having been popped, exactly
as in the source.  The token parameter is the one of callable.rs; the
interpreter snapshot calls call without it, and the call expression passes
its closing parenthesis, the only token in scope there. -/
def Callable.call : Nat → Callable → List Literal → Token → List String →
    POut Literal × List String
  | 0, _, _, _, out => (POut.fuelOut, out)
  | fuel + 1, Callable.mk _ parameters kind, arguments, token, out =>
      match kind with
      | CallableKind.Class cls =>
          let inst := Instance.new cls
          match inst.cls.find_method "init" with
          | some initializer =>
              match initializer.bind inst with
              | some bound =>
                  match Callable.call fuel bound arguments token out with
                  | (POut.ok _, out1) =>
                      (POut.ok (Literal.InstanceLiteral inst), out1)
                  | other => other
              | none => (POut.panicked, out)
          | none => (POut.ok (Literal.InstanceLiteral inst), out)
      | CallableKind.Function declaration closure isInitializer =>
          match defineAll closure.add_scope (parameters.zip arguments) with
          | none => (POut.panicked, out)
          | some closure1 =>
              match execute_statements fuel declaration.body closure1 out with
              | (POut.err (tok, message), closure2, out1) =>
                  if tok.typ = TokenType.Return && tok.lexeme = "RETURN" then
                    if isInitializer then
                      match closure2.get_at 0 "this" with
                      | some (some v) => (POut.ok v, out1)
                      | _ => (POut.panicked, out1)
                    else (POut.ok tok.literal, out1)
                  else (POut.err (tok, message), out1)
              | (POut.ok _, closure2, out1) =>
                  let closure3 := closure2.del_scope
                  if isInitializer then
                    match closure3.get_at 0 "this" with
                    | some (some v) => (POut.ok v, out1)
                    | _ => (POut.panicked, out1)
                  else (POut.ok Literal.None, out1)
              | (POut.panicked, _, out1) => (POut.panicked, out1)
              | (POut.fuelOut, _, out1) => (POut.fuelOut, out1)
      | CallableKind.Native nm => (nativeCall nm arguments token, out)

end

/-- main.rs runtime_error: the two-line diagnostic for a runtime error. -/
def runtime_error (line : Nat) (message : String) : String :=
  message ++ "\n[line " ++ toString line ++ "]"

/-- interpreter.rs interpret: run the statements, stopping at the first
runtime error and reporting it; the Bool is whether a runtime error
occurred. -/
def interpret : Nat → List Stmt → Environment → List String →
    POut Bool × Environment × List String
  | 0, _, env, out => (POut.fuelOut, env, out)
  | _ + 1, [], env, out => (POut.ok false, env, out)
  | fuel + 1, s :: rest, env, out =>
      match Stmt.interpret fuel s env out with
      | (POut.ok _, env1, out1) => interpret fuel rest env1 out1
      | (POut.err (tok, message), env1, out1) =>
          (POut.ok true, env1, out1 ++ [runtime_error tok.line message])
      | (POut.panicked, env1, out1) => (POut.panicked, env1, out1)
      | (POut.fuelOut, env1, out1) => (POut.fuelOut, env1, out1)

/-- main.rs run: scanner, then (gated by the scanner error flag) parser,
resolver and interpreter.  The result pair is (had_error,
had_runtime_error); the output accumulates interpreter prints and runtime
error reports. -/
def run (fuel : Nat) (source : String) (env : Environment) :
    POut (Bool × Bool) × Environment × List String :=
  let (tokens, had_error) := scan_tokens source
  if had_error then (POut.ok (true, false), env, [])
  else
    match parse fuel tokens with
    | ParseResult.ok stmts =>
        match resolve_statements fuel stmts env false with
        | (POut.ok _, rst) =>
            if rst.hadErr then (POut.ok (true, false), rst.env, [])
            else
              match interpret fuel stmts rst.env [] with
              | (POut.ok hadRuntime, env2, out) => (POut.ok (false, hadRuntime), env2, out)
              | (POut.err e, env2, out) => (POut.err e, env2, out)
              | (POut.panicked, env2, out) => (POut.panicked, env2, out)
              | (POut.fuelOut, env2, out) => (POut.fuelOut, env2, out)
        | (POut.err _, rst) => (POut.ok (true, false), rst.env, [])
        | (POut.panicked, rst) => (POut.panicked, rst.env, [])
        | (POut.fuelOut, rst) => (POut.fuelOut, rst.env, [])
    | ParseResult.err _ => (POut.ok (true, false), env, ["Parse errors encountered."])
    | ParseResult.panicked => (POut.panicked, env, [])
    | ParseResult.fuelOut => (POut.fuelOut, env, [])

/-- main.rs run_file: run against a fresh environment. -/
def run_file (fuel : Nat) (source : String) :
    POut (Bool × Bool) × Environment × List String :=
  run fuel source Environment.new

/-- The exit-code policy of main.rs run_file: 65 for a static error, 70 for
a runtime error, 0 otherwise. -/
def exit_code (r : Bool × Bool) : Nat :=
  if r.1 then 65 else if r.2 then 70 else 0

def POut.isOk {α : Type} : POut α → Bool
  | POut.ok _ => true
  | _ => false

def POut.isErr {α : Type} : POut α → Bool
  | POut.err _ => true
  | _ => false

def POut.isPanic {α : Type} : POut α → Bool
  | POut.panicked => true
  | _ => false

/-- The value kinds of token.rs Literal, for stating cross-kind facts. -/
inductive LitKind : Type where
  | kBool | kCallable | kF64 | kIdent | kInstance | kString | kNone
deriving DecidableEq

def kindOf : Literal → LitKind
  | Literal.BoolLiteral _ => LitKind.kBool
  | Literal.CallableLiteral _ => LitKind.kCallable
  | Literal.F64 _ => LitKind.kF64
  | Literal.IdentifierLiteral _ => LitKind.kIdent
  | Literal.InstanceLiteral _ => LitKind.kInstance
  | Literal.StringLiteral _ => LitKind.kString
  | Literal.None => LitKind.kNone

def Literal.isF64 : Literal → Bool
  | Literal.F64 _ => true
  | _ => false

/-- The while loop produced by the for-statement desugaring, possibly
wrapped in the initializer block. -/
def whileOf : Stmt → Option (Expr × Stmt)
  | Stmt.While c b => some (c, b)
  | Stmt.Block [_, Stmt.While c b] => some (c, b)
  | _ => none

/-- The class of an instance a call succeeded with, if any. -/
def resultClassName : POut Literal → Option String
  | POut.ok (Literal.InstanceLiteral i) => some i.cls.name
  | _ => none

/- Concrete tokens and declarations used by witnesses and
counterexamples. -/

def tok_x : Token := Token.mk TokenType.Identifier "x" (Literal.IdentifierLiteral "x") 1

def tok_a : Token := Token.mk TokenType.Identifier "a" (Literal.IdentifierLiteral "a") 1

def tok_b : Token := Token.mk TokenType.Identifier "b" (Literal.IdentifierLiteral "b") 1

def tok_dot : Token := Token.mk TokenType.Dot "." Literal.None 1

def tok_this : Token := Token.mk TokenType.This "this" Literal.None 1

def tok_super : Token := Token.mk TokenType.Super "super" Literal.None 1

def tok_semi : Token := Token.mk TokenType.Semicolon ";" Literal.None 1

def tok_rparen : Token := Token.mk TokenType.RightParen ")" Literal.None 1

def tok_lbrace : Token := Token.mk TokenType.LeftBrace "\x7b" Literal.None 1

def tok_rbrace : Token := Token.mk TokenType.RightBrace "\x7d" Literal.None 1

def tok_slash : Token := Token.mk TokenType.Slash "/" Literal.None 1

def tok_return : Token := Token.mk TokenType.Return "return" Literal.None 1

def tok_init : Token := Token.mk TokenType.Identifier "init" (Literal.IdentifierLiteral "init") 1

/-- An init method whose body is a single valueless return. -/
def initFnRet : Function := Function.mk tok_init [] [Stmt.Return tok_return none]

/-- An init method with an empty body (normal completion). -/
def initFnEmpty : Function := Function.mk tok_init [] []

/-- The class value produced by declaring class A with the returning init,
as interpreter.rs builds it. -/
def classWithReturningInit : Callable :=
  Callable.new_class "A" none (methodsFold [initFnRet] Environment.new)

/-- The class value produced by declaring class B with the empty init. -/
def classWithEmptyInit : Callable :=
  Callable.new_class "B" none (methodsFold [initFnEmpty] Environment.new)

/-! Theorems for the specification claims. -/

/-- Claim C5: for a source string whose string literal is never terminated,
the claim states that scan_tokens returns with its error flag set and the
parser is never run.  In the code, Scanner::scan_string reports the error
but scan_token returns false for the quote character in every state, so
the flag stays false and the pipeline continues: on the source consisting
of an unterminated string, scanning yields no tokens and flag false, and
the whole run completes with neither a static nor a runtime error (exit
code 0), the parser having been run on the truncated token stream. -/
theorem scan_unterminated_string_does_not_set_flag :
    (∀ src st, (scan_token '"' src st).2.2 = false) ∧
    (scan_tokens "\"abc").2 = false ∧
    (scan_tokens "\"abc").1 = [] ∧
    (run_file 100 "\"abc").1 = POut.ok (false, false) ∧
    exit_code (false, false) = 0 := by
  refine ⟨?_, rfl, rfl, rfl, rfl⟩
  intro src st
  show (scan_token '"' src st).2.2 = false
  unfold scan_token
  rcases h : scan_string src st with ⟨a, b⟩
  simp [h]

/-- Claim C2: the claim states that an init method yields the bound this
both on normal completion and on an explicit valueless return.  Normal
completion does (class B below), but on the valueless-return path
Callable::call reads this at distance 0 from a closure whose body scope
has not been popped, so the lookup returns None and the unwrap panics
(class A below): constructing A panics instead of returning the
instance. -/
theorem initializer_return_panics :
    (Callable.call 20 classWithReturningInit [] tok_rparen []).1 = POut.panicked ∧
    resultClassName (Callable.call 20 classWithEmptyInit [] tok_rparen []).1 = some "B" := by
  exact ⟨rfl, rfl⟩

/-- Claim C8: is_equal is reflexive on nil, booleans, non-NaN numbers and
strings, and any two operands of different kinds compare unequal. -/
theorem is_equal_reflexive_and_cross_kind :
    (is_equal Literal.None Literal.None = true) ∧
    (∀ b, is_equal (Literal.BoolLiteral b) (Literal.BoolLiteral b) = true) ∧
    (∀ f, f.isNaN = false → is_equal (Literal.F64 f) (Literal.F64 f) = true) ∧
    (∀ s, is_equal (Literal.StringLiteral s) (Literal.StringLiteral s) = true) ∧
    (∀ v w, kindOf v ≠ kindOf w → is_equal v w = false) := by
  refine ⟨rfl, ?_, ?_, ?_, ?_⟩
  · intro b; cases b <;> rfl
  · intro f h; cases f <;> simp_all [is_equal, f64Eq, F64Val.isNaN]
  · intro s; simp [is_equal]
  · intro v w h
    cases v <;> cases w <;> simp_all [is_equal, kindOf]

/-- Claim C8 witness. -/
theorem is_equal_reflexive_and_cross_kind_witness :
    is_equal (Literal.F64 (F64Val.finite 2)) (Literal.F64 (F64Val.finite 2)) = true ∧
    is_equal (Literal.StringLiteral "hi") (Literal.BoolLiteral true) = false := by
  exact ⟨is_equal_reflexive_and_cross_kind.2.2.1 _ rfl,
    is_equal_reflexive_and_cross_kind.2.2.2.2 _ _ (by simp [kindOf])⟩

/-- Claim C9: printing an f64 with zero fractional part and magnitude below
two to the 53 yields the decimal integer representation with no decimal
point. -/
theorem stringify_integral_float (n : ℤ) (h : n.natAbs < 2 ^ 53) :
    stringify (Literal.F64 (F64Val.finite (n : ℚ))) = toString n := by
  have htr : ratTrunc (n : ℚ) = n := by
    unfold ratTrunc
    split <;> simp
  have hfr : f64Fract (F64Val.finite (n : ℚ)) = F64Val.finite 0 := by
    simp [f64Fract, htr]
  simp only [stringify, hfr, f64Eq, f64ToI64, htr]
  norm_num
  rw [if_neg (by omega), if_neg (by omega)]

/-- Claim C9 witness. -/
theorem stringify_integral_float_witness :
    stringify (Literal.F64 (F64Val.finite ((3 : ℤ) : ℚ))) = "3" ∧
    stringify (Literal.F64 (F64Val.finite ((-5 : ℤ) : ℚ))) = "-5" := by
  constructor
  · exact (stringify_integral_float 3 (by norm_num)).trans rfl
  · exact (stringify_integral_float (-5) (by norm_num)).trans rfl

/-- Claim C3 counterexample: the claim states the runtime error message for
an undefined global read is exactly Undefined variable, but running the
program print x through the whole pipeline prints the line Unable to
resolve global variable, which is a different message. -/
theorem undefined_global_message_counterexample :
    (run_file 100 "print x;").2.2 =
      ["Unable to resolve global variable \x27x\x27.\n[line 1]"] ∧
    ("Unable to resolve global variable \x27x\x27.\n[line 1]" : String) ≠
      "Undefined variable \x27x\x27.\n[line 1]" := by
  exact ⟨rfl, by decide⟩

/-- Claim C3 as amended: a variable read whose id has no resolution entry
and whose name is absent from the global frame is the runtime error
Unable to resolve global variable, so print x prints that message followed
by the line report and the process exits with code 70. -/
theorem undefined_global_lookup_message :
    (∀ (name : Token) (id : Nat) (env : Environment) (g : List (String × Literal)),
      assocGet env.locals id = none →
      env.layers.head? = some g →
      assocGet g name.lexeme = none →
      lookup_variable name id env =
        POut.err (name,
          "Unable to resolve global variable \x27" ++ name.lexeme ++ "\x27.")) ∧
    ((run_file 100 "print x;").1 = POut.ok (false, true) ∧
     (run_file 100 "print x;").2.2 =
       ["Unable to resolve global variable \x27x\x27.\n[line 1]"] ∧
     exit_code (false, true) = 70) := by
  refine ⟨?_, rfl, rfl, rfl⟩
  intro name id env g h1 h2 h3
  simp [lookup_variable, h1, h2, h3]

/-- Claim C3 witness. -/
theorem undefined_global_lookup_message_witness :
    lookup_variable tok_x 0 Environment.new =
      POut.err (tok_x, "Unable to resolve global variable \x27x\x27.") := by
  exact undefined_global_lookup_message.1 tok_x 0 Environment.new _ rfl rfl rfl

/-- Claim C10: a binary slash on literal operands is a runtime error
exactly when some operand is not a number; dividing a finite number by the
literal zero never errors and yields the IEEE quotient, an infinity or
NaN. -/
theorem slash_errors_iff_non_numeric :
    (∀ (op : Token) (f i1 i2 i3 : Nat) (v1 v2 : Literal) (env : Environment)
        (out : List String),
      op.typ = TokenType.Slash →
      ((Expr.interpret (f + 2)
          (Expr.mk i3 (ExprKind.Binary (Expr.mk i1 (ExprKind.LiteralExpr v1)) op
            (Expr.mk i2 (ExprKind.LiteralExpr v2)))) env out).1.isErr = true ↔
        (v1.isF64 && v2.isF64) = false)) ∧
    (∀ (q : ℚ) (op : Token) (f i1 i2 i3 : Nat) (env : Environment) (out : List String),
      op.typ = TokenType.Slash →
      (Expr.interpret (f + 2)
          (Expr.mk i3 (ExprKind.Binary
            (Expr.mk i1 (ExprKind.LiteralExpr (Literal.F64 (F64Val.finite q)))) op
            (Expr.mk i2 (ExprKind.LiteralExpr (Literal.F64 (F64Val.finite 0)))))) env out).1 =
        POut.ok (Literal.F64 (f64Div (F64Val.finite q) (F64Val.finite 0))) ∧
      (f64Div (F64Val.finite q) (F64Val.finite 0)).isInfOrNaN = true) := by
  constructor
  · intro op f i1 i2 i3 v1 v2 env out hop
    rcases op with ⟨tt, lex, lit, ln⟩
    simp only [Token.typ] at hop
    subst hop
    cases v1 <;> cases v2 <;>
      simp [Expr.interpret, Expr.kind, Expr.id, Token.typ, get_numeric_operands,
        POut.isErr, Literal.isF64]
  · intro q op f i1 i2 i3 env out hop
    rcases op with ⟨tt, lex, lit, ln⟩
    simp only [Token.typ] at hop
    subst hop
    constructor
    · simp [Expr.interpret, Expr.kind, Expr.id, Token.typ, get_numeric_operands]
    · show (f64Div (F64Val.finite q) (F64Val.finite 0)).isInfOrNaN = true
      simp only [f64Div, if_true, eq_self_iff_true]
      split
      · rfl
      · split <;> rfl

/-- Claim C10 witness. -/
theorem slash_errors_iff_non_numeric_witness :
    ((Expr.interpret 2
        (Expr.mk 2 (ExprKind.Binary (Expr.mk 0 (ExprKind.LiteralExpr (Literal.BoolLiteral true)))
          tok_slash
          (Expr.mk 1 (ExprKind.LiteralExpr (Literal.F64 (F64Val.finite 1)))))) Environment.new
        []).1.isErr = true ↔ ((Literal.BoolLiteral true).isF64 &&
          (Literal.F64 (F64Val.finite 1)).isF64) = false) ∧
    (Expr.interpret 2
        (Expr.mk 2 (ExprKind.Binary (Expr.mk 0 (ExprKind.LiteralExpr (Literal.F64 (F64Val.finite 1))))
          tok_slash
          (Expr.mk 1 (ExprKind.LiteralExpr (Literal.F64 (F64Val.finite 0)))))) Environment.new
        []).1 = POut.ok (Literal.F64 (f64Div (F64Val.finite 1) (F64Val.finite 0))) := by
  exact ⟨slash_errors_iff_non_numeric.1 tok_slash 0 0 1 2 _ _ Environment.new [] rfl,
    (slash_errors_iff_non_numeric.2 1 tok_slash 0 0 1 2 Environment.new [] rfl).1⟩

/-- Claim C1 counterexample: after the primary a, a dot token is not
consumed by call and no get expression is produced (the parse yields the
plain variable with the dot still pending), and primary rejects both this
and super with the Expected expression diagnostic. -/
theorem postfix_dot_and_this_counterexample :
    (call 20 1 { nextId := 0, toks := [tok_a, tok_dot, tok_b], hadErr := false } =
      (POut.ok (Expr.mk 0 (ExprKind.Variable tok_a)),
       { nextId := 1, toks := [tok_dot, tok_b], hadErr := false })) ∧
    (∀ i o n, (call 20 1 { nextId := 0, toks := [tok_a, tok_dot, tok_b], hadErr := false }).1 ≠
      POut.ok (Expr.mk i (ExprKind.Get o n))) ∧
    (primary 20 1 { nextId := 0, toks := [tok_this], hadErr := false } =
      (POut.err (tok_this, "Expected expression."),
       { nextId := 0, toks := [], hadErr := false })) ∧
    (primary 20 1 { nextId := 0, toks := [tok_super, tok_dot, tok_b], hadErr := false } =
      (POut.err (tok_super, "Expected expression."),
       { nextId := 0, toks := [tok_dot, tok_b], hadErr := false })) := by
  refine ⟨rfl, ?_, rfl, rfl⟩
  intro i o n hcontra
  have h0 : (call 20 1 { nextId := 0, toks := [tok_a, tok_dot, tok_b], hadErr := false }).1 =
      POut.ok (Expr.mk 0 (ExprKind.Variable tok_a)) := rfl
  rw [h0] at hcontra
  simp at hcontra

/-- Claim C1 as amended: the postfix loop of call continues only on a left
parenthesis, so a dot token is left unconsumed and no get expression
exists; primary does not recognize this or super, producing the parse
error Expected expression for either token. -/
theorem call_postfix_parens_only :
    (∀ (t : Token) (fuel lineCount id : Nat) (rest : List Token) (he : Bool),
      t.typ = TokenType.This →
      primary (fuel + 1) lineCount { nextId := id, toks := t :: rest, hadErr := he } =
        (POut.err (t, "Expected expression."),
         { nextId := id, toks := rest, hadErr := he })) ∧
    (∀ (t : Token) (fuel lineCount id : Nat) (rest : List Token) (he : Bool),
      t.typ = TokenType.Super →
      primary (fuel + 1) lineCount { nextId := id, toks := t :: rest, hadErr := he } =
        (POut.err (t, "Expected expression."),
         { nextId := id, toks := rest, hadErr := he })) ∧
    (∀ (fuel lineCount : Nat) (e : Expr) (st : PState),
      (∀ t, st.toks.head? = some t → t.typ ≠ TokenType.LeftParen) →
      callLoop (fuel + 1) lineCount e st = (POut.ok e, st)) := by
  refine ⟨?_, ?_, ?_⟩
  · intro t fuel lineCount id rest he h
    rcases t with ⟨tt, lex, lit, ln⟩
    simp only [Token.typ] at h
    subst h
    rfl
  · intro t fuel lineCount id rest he h
    rcases t with ⟨tt, lex, lit, ln⟩
    simp only [Token.typ] at h
    subst h
    rfl
  · intro fuel lineCount e st h
    rcases hst : st.toks with _ | ⟨t, rest⟩
    · simp [callLoop, matchTypes, hst]
    · have ht : t.typ ≠ TokenType.LeftParen := h t (by rw [hst]; rfl)
      simp [callLoop, matchTypes, hst, ht]

/-- Claim C1 witness. -/
theorem call_postfix_parens_only_witness :
    (primary 20 1 { nextId := 5, toks := [tok_this, tok_semi], hadErr := false } =
      (POut.err (tok_this, "Expected expression."),
       { nextId := 5, toks := [tok_semi], hadErr := false })) ∧
    (callLoop 20 1 (Expr.mk 0 (ExprKind.Variable tok_a))
        { nextId := 1, toks := [tok_dot, tok_b], hadErr := false } =
      (POut.ok (Expr.mk 0 (ExprKind.Variable tok_a)),
       { nextId := 1, toks := [tok_dot, tok_b], hadErr := false })) := by
  exact ⟨call_postfix_parens_only.1 tok_this 19 1 5 [tok_semi] false rfl,
    call_postfix_parens_only.2.2 19 1 (Expr.mk 0 (ExprKind.Variable tok_a))
      { nextId := 1, toks := [tok_dot, tok_b], hadErr := false }
      (by intro t ht; cases ht; decide)⟩

/-- The loop of resolve_local records, relative to a starting index, the
index of the first scope (in the traversal order) containing the name. -/
theorem resolveLocalGo_spec (id : Nat) (lex : String) :
    ∀ (l : List (List (String × Bool))) (i : Nat) (env : Environment),
      resolveLocalGo id lex l i env =
        match l.findIdx? (fun s => assocContains s lex) i with
        | some d => resolve id d env
        | none => env := by
  intro l
  induction l with
  | nil => intro i env; rfl
  | cons s rest ih =>
      intro i env
      by_cases hs : assocContains s lex
      · simp [resolveLocalGo, hs, List.findIdx?_cons]
      · simp [resolveLocalGo, hs, List.findIdx?_cons, ih]

/-- Claim C7: resolve_local walks the scope stack from innermost out; when
some scope contains the name it records, keyed by the expression id, the
index from the innermost of the first such scope, and it records nothing
when no scope contains the name. -/
theorem resolve_local_records_innermost_depth :
    (∀ (id : Nat) (name : Token) (env : Environment) (d : Nat),
      env.scopes.reverse.findIdx? (fun s => assocContains s name.lexeme) = some d →
      resolve_local id name env = resolve id d env) ∧
    (∀ (id : Nat) (name : Token) (env : Environment),
      env.scopes.reverse.findIdx? (fun s => assocContains s name.lexeme) = none →
      resolve_local id name env = env) := by
  constructor
  · intro id name env d h
    rw [resolve_local, resolveLocalGo_spec, h]
  · intro id name env h
    rw [resolve_local, resolveLocalGo_spec, h]


/-- Claim C7 witness: in a scope stack whose innermost scope declares x and
an outer scope declares y, the depth recorded for x is 0, the depth for y
is 1, and an absent name records nothing. -/
theorem resolve_local_records_innermost_depth_witness :
    resolve_local 7 tok_x (Environment.mk [] [[("x", true)], [("y", true)], [("x", false)]] []) =
      resolve 7 0 (Environment.mk [] [[("x", true)], [("y", true)], [("x", false)]] []) ∧
    resolve_local 8 tok_b (Environment.mk [] [[("x", true)], [("y", true)], [("x", false)]] []) =
      (Environment.mk [] [[("x", true)], [("y", true)], [("x", false)]] []) := by
  exact ⟨resolve_local_records_innermost_depth.1 7 tok_x _ 0 rfl,
    resolve_local_records_innermost_depth.2 8 tok_b _ rfl⟩

theorem add_scope_layers_length (env : Environment) :
    (env.add_scope).layers.length = env.layers.length + 1 := by
  cases env; simp [Environment.add_scope, Environment.setLayers, Environment.layers]

theorem del_scope_layers_length (env : Environment) :
    (env.del_scope).layers.length = env.layers.length - 1 := by
  cases env; simp [Environment.del_scope, Environment.setLayers, Environment.layers]

theorem define_layers_length (env : Environment) (n : String) (v : Literal)
    (env1 : Environment) (h : env.define n v = some env1) :
    env1.layers.length = env.layers.length := by
  cases env with
  | mk layers scopes locals =>
      simp only [Environment.define, Environment.layers] at h
      rcases hl : layers.getLast? with _ | last
      · rw [hl] at h; simp at h
      · rw [hl] at h
        simp only [Option.some.injEq] at h
        subst h
        have hne : layers ≠ [] := by
          intro hc; rw [hc] at hl; simp at hl
        have hpos : 0 < layers.length := List.length_pos.mpr hne
        simp [Environment.setLayers, Environment.layers, List.length_dropLast]
        omega

theorem assign_at_layers_length (env : Environment) (d : Nat) (name : Token)
    (v v1 : Literal) (env1 : Environment)
    (h : env.assign_at d name v = some (v1, env1)) :
    env1.layers.length = env.layers.length := by
  cases env with
  | mk layers scopes locals =>
      simp only [Environment.assign_at, Environment.layers] at h
      split at h
      · split at h
        · simp at h
        · simp only [Option.some.injEq, Prod.mk.injEq] at h
          obtain ⟨_, h2⟩ := h
          subst h2
          simp [Environment.setLayers, Environment.layers]
      · simp at h

theorem assign_global_layers_length (env : Environment) (name : Token)
    (v v1 : Literal) (env1 : Environment)
    (h : env.assign_global name v = some (Except.ok (v1, env1))) :
    env1.layers.length = env.layers.length := by
  cases env with
  | mk layers scopes locals =>
      cases layers with
      | nil => simp [Environment.assign_global, Environment.layers] at h
      | cons g rest =>
          simp only [Environment.assign_global, Environment.layers] at h
          split at h
          · simp only [Option.some.injEq, Except.ok.injEq, Prod.mk.injEq] at h
            obtain ⟨_, h2⟩ := h
            subst h2
            simp [Environment.setLayers, Environment.layers]
          · simp at h

theorem assign_layers_length (env : Environment) (name : Token) (v v1 : Literal)
    (env1 : Environment) (h : env.assign name v = Except.ok (v1, env1)) :
    env1.layers.length = env.layers.length := by
  simp only [Environment.assign] at h
  split at h
  · split at h
    · simp only [Except.ok.injEq] at h
      subst h
      next heq => exact assign_at_layers_length env _ name v v1 env1 heq
    · simp at h
  · simp at h

/-- Claim C6: when the for-statement condition clause is omitted (the token
at the condition position is the semicolon), the desugaring substitutes
the literal false as the while condition — whatever the increment, body
and initializer are — and interpreting a while whose condition is the
literal false never executes the body: it returns at once leaving the
environment and the output untouched. -/
theorem for_missing_condition_desugars_to_false :
    (∀ (fuel lineCount : Nat) (st : PState) (initializer : Option Stmt)
        (stmt : Stmt) (st2 : PState),
      st.toks.head?.map Token.typ = some TokenType.Semicolon →
      for_statement_tail (fuel + 1) lineCount st initializer = (POut.ok stmt, st2) →
      ∃ i body, whileOf stmt =
        some (Expr.mk i (ExprKind.LiteralExpr (Literal.BoolLiteral false)), body)) ∧
    (∀ (fuel i : Nat) (body : Stmt) (env : Environment) (out : List String),
      Stmt.interpret (fuel + 2)
        (Stmt.While (Expr.mk i (ExprKind.LiteralExpr (Literal.BoolLiteral false))) body)
        env out = (POut.ok Literal.None, env, out)) := by
  constructor
  · intro fuel lc st init stmt st2 hhead h
    obtain ⟨t, rest, htoks, htyp⟩ :
        ∃ t rest, st.toks = t :: rest ∧ t.typ = TokenType.Semicolon := by
      rcases hst : st.toks with _ | ⟨t, r⟩
      · rw [hst] at hhead; simp at hhead
      · rw [hst] at hhead; simp at hhead; exact ⟨t, r, rfl, hhead⟩
    have hcheck : check TokenType.Semicolon st = true := by simp [check, htoks, htyp]
    rw [for_statement_tail] at h
    simp only [hcheck, Bool.not_true, Bool.false_eq_true, if_false] at h
    rw [show consume TokenType.Semicolon
          ("Expected \x27;\x27 after loop condition, instead found end of file.")
          ("Expected \x27;\x27 after loop condition.") lc st =
        (POut.ok t, { st with toks := rest }) from by simp [consume, htoks, htyp]] at h
    split at h <;> try simp at h
    case _ =>
      split at h <;> try simp at h
      all_goals try (split at h <;> try simp at h)
      all_goals try (split at h <;> try simp at h)
      all_goals try (split at h <;> try simp at h)
      all_goals try simp only [Prod.mk.injEq, POut.ok.injEq] at h
      all_goals obtain ⟨hstmt, hst2⟩ := h
      all_goals subst hstmt
      all_goals exact ⟨_, _, rfl⟩
  · intro fuel i body env out
    simp [Stmt.interpret, Expr.interpret, Expr.kind, is_truthy]

/-- Claim C6 witness: on the concrete clause sequence semicolon, right
parenthesis, empty block — a for statement with omitted condition and
omitted increment — the tail of the desugaring produces a while on the
literal false, and interpreting that while leaves a fresh environment and
empty output unchanged. -/
theorem for_missing_condition_desugars_to_false_witness :
    (∃ i body, whileOf (Stmt.While (Expr.mk 0 (ExprKind.LiteralExpr (Literal.BoolLiteral false)))
        (Stmt.Block [])) =
      some (Expr.mk i (ExprKind.LiteralExpr (Literal.BoolLiteral false)), body)) ∧
    Stmt.interpret 2
        (Stmt.While (Expr.mk 0 (ExprKind.LiteralExpr (Literal.BoolLiteral false)))
          (Stmt.Block [])) Environment.new [] =
      (POut.ok Literal.None, Environment.new, []) := by
  exact ⟨for_missing_condition_desugars_to_false.1 49 1
      { nextId := 0, toks := [tok_semi, tok_rparen, tok_lbrace, tok_rbrace], hadErr := false }
      none _ _ rfl rfl,
    for_missing_condition_desugars_to_false.2 0 0 (Stmt.Block []) Environment.new []⟩

/-- The scope-stack depth invariant of the tree-walking evaluator:
expression evaluation never changes the number of environment layers; a
statement preserves the layer count when it completes normally and never
decreases it below the entry count when an error or return signal
propagates; and execute_block restores the entry count exactly on normal
completion while an error propagation leaves at least the pushed layer
behind. -/

theorem interpret_layers_invariant : ∀ fuel : Nat,
    (∀ e env out, ((Expr.interpret fuel e env out).2.1).layers.length = env.layers.length) ∧
    (∀ args env out,
      ((interpretArgs fuel args env out).2.1).layers.length = env.layers.length) ∧
    (∀ s env out,
      ((Stmt.interpret fuel s env out).1.isOk = true →
        ((Stmt.interpret fuel s env out).2.1).layers.length = env.layers.length) ∧
      ((Stmt.interpret fuel s env out).1.isErr = true →
        ((Stmt.interpret fuel s env out).2.1).layers.length ≥ env.layers.length)) ∧
    (∀ l env out,
      ((execute_statements fuel l env out).1.isOk = true →
        ((execute_statements fuel l env out).2.1).layers.length = env.layers.length) ∧
      ((execute_statements fuel l env out).1.isErr = true →
        ((execute_statements fuel l env out).2.1).layers.length ≥ env.layers.length)) ∧
    (∀ l env out,
      ((execute_block fuel l env out).1.isOk = true →
        ((execute_block fuel l env out).2.1).layers.length = env.layers.length) ∧
      ((execute_block fuel l env out).1.isErr = true →
        ((execute_block fuel l env out).2.1).layers.length ≥ env.layers.length + 1)) := by
  intro fuel
  induction fuel with
  | zero =>
      refine ⟨?_, ?_, ?_, ?_, ?_⟩ <;> intros <;>
        simp [Expr.interpret, interpretArgs, Stmt.interpret, execute_statements,
          execute_block, POut.isOk, POut.isErr]
  | succ fuel ih =>
      obtain ⟨IHe, IHa, IHs, IHl, IHb⟩ := ih
      have He : ∀ e env out,
          ((Expr.interpret (fuel + 1) e env out).2.1).layers.length = env.layers.length := by
        intro e env out
        rcases e with ⟨i, k⟩
        cases k with
        | Assign name value =>
            rcases h1 : Expr.interpret fuel value env out with ⟨r1, env1, out1⟩
            have e1 : env1.layers.length = env.layers.length := by
              have t := IHe value env out; rw [h1] at t; exact t
            cases r1 with
            | ok v =>
                simp only [Expr.interpret, Expr.kind, Expr.id, h1]
                rcases h2 : assocGet env1.locals i with _ | d
                · simp only [h2]
                  rcases h3 : env1.assign_global name v with _ | r3
                  · simp [e1]
                  · cases r3 with
                    | ok p =>
                        rcases p with ⟨v1, env2⟩
                        simp only [h3]
                        simpa [assign_global_layers_length env1 name v v1 env2 h3] using e1
                    | error d => simp [h3, e1]
                · simp only [h2]
                  rcases h3 : env1.assign_at d name v with _ | p
                  · simp [e1]
                  · rcases p with ⟨v1, env2⟩
                    simp only [h3]
                    simpa [assign_at_layers_length env1 d name v v1 env2 h3] using e1
            | err e => simp [Expr.interpret, Expr.kind, Expr.id, h1, e1]
            | panicked => simp [Expr.interpret, Expr.kind, Expr.id, h1, e1]
            | fuelOut => simp [Expr.interpret, Expr.kind, Expr.id, h1, e1]
        | Binary left operator right =>
            rcases h1 : Expr.interpret fuel left env out with ⟨r1, env1, out1⟩
            have e1 : env1.layers.length = env.layers.length := by
              have t := IHe left env out; rw [h1] at t; exact t
            cases r1 with
            | ok l =>
                rcases h2 : Expr.interpret fuel right env1 out1 with ⟨r2, env2, out2⟩
                have e2 : env2.layers.length = env1.layers.length := by
                  have t := IHe right env1 out1; rw [h2] at t; exact t
                cases r2 <;> simp [Expr.interpret, Expr.kind, Expr.id, h1, h2, e2.trans e1]
            | err e => simp [Expr.interpret, Expr.kind, Expr.id, h1, e1]
            | panicked => simp [Expr.interpret, Expr.kind, Expr.id, h1, e1]
            | fuelOut => simp [Expr.interpret, Expr.kind, Expr.id, h1, e1]
        | Call callee paren arguments =>
            rcases h1 : Expr.interpret fuel callee env out with ⟨r1, env1, out1⟩
            have e1 : env1.layers.length = env.layers.length := by
              have t := IHe callee env out; rw [h1] at t; exact t
            cases r1 with
            | ok c =>
                rcases h2 : interpretArgs fuel arguments env1 out1 with ⟨r2, env2, out2⟩
                have e2 : env2.layers.length = env1.layers.length := by
                  have t := IHa arguments env1 out1; rw [h2] at t; exact t
                cases r2 with
                | ok funcArgs =>
                    simp only [Expr.interpret, Expr.kind, Expr.id, h1, h2]
                    cases c <;> try simp [e2.trans e1]
                    case CallableLiteral fn =>
                      split
                      · simp [e2.trans e1]
                      · rcases h3 : Callable.call fuel fn funcArgs paren out2 with ⟨r3, out3⟩
                        simp [h3, e2.trans e1]
                | err d => simp [Expr.interpret, Expr.kind, Expr.id, h1, h2, e2.trans e1]
                | panicked => simp [Expr.interpret, Expr.kind, Expr.id, h1, h2, e2.trans e1]
                | fuelOut => simp [Expr.interpret, Expr.kind, Expr.id, h1, h2, e2.trans e1]
            | err e => simp [Expr.interpret, Expr.kind, Expr.id, h1, e1]
            | panicked => simp [Expr.interpret, Expr.kind, Expr.id, h1, e1]
            | fuelOut => simp [Expr.interpret, Expr.kind, Expr.id, h1, e1]
        | Get object name =>
            rcases h1 : Expr.interpret fuel object env out with ⟨r1, env1, out1⟩
            have e1 : env1.layers.length = env.layers.length := by
              have t := IHe object env out; rw [h1] at t; exact t
            cases r1 with
            | ok v => cases v <;> simp [Expr.interpret, Expr.kind, Expr.id, h1, e1]
            | err e => simp [Expr.interpret, Expr.kind, Expr.id, h1, e1]
            | panicked => simp [Expr.interpret, Expr.kind, Expr.id, h1, e1]
            | fuelOut => simp [Expr.interpret, Expr.kind, Expr.id, h1, e1]
        | Grouping expression =>
            simp only [Expr.interpret, Expr.kind, Expr.id]
            exact IHe expression env out
        | LiteralExpr value => simp [Expr.interpret, Expr.kind, Expr.id]
        | Logical left operator right =>
            rcases h1 : Expr.interpret fuel left env out with ⟨r1, env1, out1⟩
            have e1 : env1.layers.length = env.layers.length := by
              have t := IHe left env out; rw [h1] at t; exact t
            have e3 : ∀ r, ((Expr.interpret fuel r env1 out1).2.1).layers.length =
                env.layers.length := by
              intro r; exact (IHe r env1 out1).trans e1
            cases r1 with
            | ok l =>
                simp only [Expr.interpret, Expr.kind, Expr.id, h1]
                split
                · split
                  · simp [e1]
                  · exact e3 right
                · split
                  · simp [e1]
                  · exact e3 right
            | err e => simp [Expr.interpret, Expr.kind, Expr.id, h1, e1]
            | panicked => simp [Expr.interpret, Expr.kind, Expr.id, h1, e1]
            | fuelOut => simp [Expr.interpret, Expr.kind, Expr.id, h1, e1]
        | SetExpr object name value =>
            rcases h1 : Expr.interpret fuel object env out with ⟨r1, env1, out1⟩
            have e1 : env1.layers.length = env.layers.length := by
              have t := IHe object env out; rw [h1] at t; exact t
            cases r1 with
            | ok ov =>
                cases ov <;> try simp [Expr.interpret, Expr.kind, Expr.id, h1, e1]
                case InstanceLiteral inst =>
                  rcases h2 : Expr.interpret fuel value env1 out1 with ⟨r2, env2, out2⟩
                  have e2 : env2.layers.length = env1.layers.length := by
                    have t := IHe value env1 out1; rw [h2] at t; exact t
                  cases r2 <;> simp [Expr.interpret, Expr.kind, Expr.id, h1, h2, e2.trans e1]
            | err e => simp [Expr.interpret, Expr.kind, Expr.id, h1, e1]
            | panicked => simp [Expr.interpret, Expr.kind, Expr.id, h1, e1]
            | fuelOut => simp [Expr.interpret, Expr.kind, Expr.id, h1, e1]
        | Super keyword method =>
            simp only [Expr.interpret, Expr.kind, Expr.id]
            repeat' split
            all_goals rfl
        | This keyword => simp [Expr.interpret, Expr.kind, Expr.id]
        | Unary operator right =>
            rcases h1 : Expr.interpret fuel right env out with ⟨r1, env1, out1⟩
            have e1 : env1.layers.length = env.layers.length := by
              have t := IHe right env out; rw [h1] at t; exact t
            cases r1 with
            | ok r =>
                simp only [Expr.interpret, Expr.kind, Expr.id, h1]
                split <;> try simp [e1]
                cases r <;> simp [e1]
            | err e => simp [Expr.interpret, Expr.kind, Expr.id, h1, e1]
            | panicked => simp [Expr.interpret, Expr.kind, Expr.id, h1, e1]
            | fuelOut => simp [Expr.interpret, Expr.kind, Expr.id, h1, e1]
        | Variable name => simp [Expr.interpret, Expr.kind, Expr.id]
      have Ha : ∀ args env out,
          ((interpretArgs (fuel + 1) args env out).2.1).layers.length = env.layers.length := by
        intro args env out
        cases args with
        | nil => simp [interpretArgs]
        | cons a rest =>
            rcases h1 : Expr.interpret fuel a env out with ⟨r1, env1, out1⟩
            have e1 : env1.layers.length = env.layers.length := by
              have t := IHe a env out; rw [h1] at t; exact t
            cases r1 with
            | ok v =>
                rcases h2 : interpretArgs fuel rest env1 out1 with ⟨r2, env2, out2⟩
                have e2 : env2.layers.length = env1.layers.length := by
                  have t := IHa rest env1 out1; rw [h2] at t; exact t
                cases r2 <;> simp [interpretArgs, h1, h2, e2.trans e1]
            | err e => simp [interpretArgs, h1, e1]
            | panicked => simp [interpretArgs, h1, e1]
            | fuelOut => simp [interpretArgs, h1, e1]
      have Hs : ∀ s env out,
          ((Stmt.interpret (fuel + 1) s env out).1.isOk = true →
            ((Stmt.interpret (fuel + 1) s env out).2.1).layers.length = env.layers.length) ∧
          ((Stmt.interpret (fuel + 1) s env out).1.isErr = true →
            ((Stmt.interpret (fuel + 1) s env out).2.1).layers.length ≥ env.layers.length) := by
        intro s env out
        cases s with
        | Block statements =>
            rcases hb : execute_block fuel statements env out with ⟨rb, env1, out1⟩
            have hf := IHb statements env out
            rw [hb] at hf
            obtain ⟨f1, f2⟩ := hf
            cases rb with
            | ok u =>
                refine ⟨fun _ => ?_, fun hc => ?_⟩
                · simp only [Stmt.interpret, hb]; exact f1 rfl
                · simp [Stmt.interpret, hb, POut.isErr] at hc
            | err e =>
                refine ⟨fun hc => ?_, fun _ => ?_⟩
                · simp [Stmt.interpret, hb, POut.isOk] at hc
                · simp only [Stmt.interpret, hb]
                  show env1.layers.length ≥ env.layers.length
                  have t2 : env1.layers.length ≥ env.layers.length + 1 := f2 rfl
                  omega
            | panicked =>
                refine ⟨fun hc => ?_, fun hc => ?_⟩ <;>
                  simp [Stmt.interpret, hb, POut.isOk, POut.isErr] at hc
            | fuelOut =>
                refine ⟨fun hc => ?_, fun hc => ?_⟩ <;>
                  simp [Stmt.interpret, hb, POut.isOk, POut.isErr] at hc
        | Class name superclass methods =>
            cases superclass with
            | none =>
                rcases hd : env.define name.lexeme Literal.None with _ | env2
                · refine ⟨fun hc => ?_, fun hc => ?_⟩ <;>
                    simp [Stmt.interpret, hd, POut.isOk, POut.isErr] at hc
                · have ed := define_layers_length env _ _ env2 hd
                  rcases ha : env2.assign name (Literal.CallableLiteral
                      (Callable.new_class name.lexeme none (methodsFold methods env2))) with
                    e | ⟨v1, env5⟩
                  · refine ⟨fun hc => ?_, fun _ => ?_⟩
                    · simp [Stmt.interpret, hd, ha, POut.isOk] at hc
                    · simp only [Stmt.interpret, hd, ha]
                      show env2.layers.length ≥ env.layers.length
                      omega
                  · have ea := assign_layers_length env2 name _ v1 env5 ha
                    refine ⟨fun _ => ?_, fun hc => ?_⟩
                    · simp only [Stmt.interpret, hd, ha]
                      exact ea.trans ed
                    · simp [Stmt.interpret, hd, ha, POut.isErr] at hc
            | some expr =>
                rcases h1 : Expr.interpret fuel expr env out with ⟨r1, env1, out1⟩
                have e1 : env1.layers.length = env.layers.length := by
                  have t := IHe expr env out; rw [h1] at t; exact t
                cases r1 with
                | ok v =>
                    cases v with
                    | CallableLiteral c =>
                        rcases c with ⟨ar, ps, ckind⟩
                        cases ckind with
                        | Class cls =>
                            rcases hd : env1.define name.lexeme Literal.None with _ | env2
                            · refine ⟨fun hc => ?_, fun hc => ?_⟩ <;>
                                simp [Stmt.interpret, h1, hd, POut.isOk, POut.isErr] at hc
                            · have ed := define_layers_length env1 _ _ env2 hd
                              rcases hss : (env2.add_scope).define "super"
                                  (Literal.CallableLiteral (Callable.new_class cls.name
                                    cls.superclass cls.methods)) with _ | env3
                              · refine ⟨fun hc => ?_, fun hc => ?_⟩ <;>
                                  simp [Stmt.interpret, h1, hd, hss, POut.isOk, POut.isErr] at hc
                              · have es : env3.layers.length = env2.layers.length + 1 :=
                                  (define_layers_length _ _ _ env3 hss).trans
                                    (add_scope_layers_length env2)
                                rcases ha : (env3.del_scope).assign name
                                    (Literal.CallableLiteral (Callable.new_class name.lexeme
                                      (some cls) (methodsFold methods env3))) with e | ⟨v1, env5⟩
                                · have edel := del_scope_layers_length env3
                                  refine ⟨fun hc => ?_, fun _ => ?_⟩
                                  · simp [Stmt.interpret, h1, hd, hss, ha, POut.isOk] at hc
                                  · simp only [Stmt.interpret, h1, hd, hss, ha]
                                    show (env3.del_scope).layers.length ≥ env.layers.length
                                    omega
                                · have ea := assign_layers_length (env3.del_scope) name _ v1 env5 ha
                                  have edel := del_scope_layers_length env3
                                  refine ⟨fun _ => ?_, fun hc => ?_⟩
                                  · simp only [Stmt.interpret, h1, hd, hss, ha]
                                    show env5.layers.length = env.layers.length
                                    omega
                                  · simp [Stmt.interpret, h1, hd, hss, ha, POut.isErr] at hc
                        | Function decl clos isInit =>
                            rcases expr with ⟨i0, k0⟩
                            cases k0 <;>
                              refine ⟨fun hc => ?_, fun hh => ?_⟩ <;>
                                first
                                  | simp [Stmt.interpret, h1, Expr.kind, POut.isOk] at hc
                                  | (simp only [Stmt.interpret, h1, Expr.kind]; omega)
                                  | simp [Stmt.interpret, h1, Expr.kind, POut.isErr] at hh
                        | Native nm =>
                            rcases expr with ⟨i0, k0⟩
                            cases k0 <;>
                              refine ⟨fun hc => ?_, fun hh => ?_⟩ <;>
                                first
                                  | simp [Stmt.interpret, h1, Expr.kind, POut.isOk] at hc
                                  | (simp only [Stmt.interpret, h1, Expr.kind]; omega)
                                  | simp [Stmt.interpret, h1, Expr.kind, POut.isErr] at hh
                    | BoolLiteral b =>
                        rcases expr with ⟨i0, k0⟩
                        cases k0 <;>
                          refine ⟨fun hc => ?_, fun hh => ?_⟩ <;>
                            first
                              | simp [Stmt.interpret, h1, Expr.kind, POut.isOk] at hc
                              | (simp only [Stmt.interpret, h1, Expr.kind]; omega)
                              | simp [Stmt.interpret, h1, Expr.kind, POut.isErr] at hh
                    | F64 q =>
                        rcases expr with ⟨i0, k0⟩
                        cases k0 <;>
                          refine ⟨fun hc => ?_, fun hh => ?_⟩ <;>
                            first
                              | simp [Stmt.interpret, h1, Expr.kind, POut.isOk] at hc
                              | (simp only [Stmt.interpret, h1, Expr.kind]; omega)
                              | simp [Stmt.interpret, h1, Expr.kind, POut.isErr] at hh
                    | IdentifierLiteral sl =>
                        rcases expr with ⟨i0, k0⟩
                        cases k0 <;>
                          refine ⟨fun hc => ?_, fun hh => ?_⟩ <;>
                            first
                              | simp [Stmt.interpret, h1, Expr.kind, POut.isOk] at hc
                              | (simp only [Stmt.interpret, h1, Expr.kind]; omega)
                              | simp [Stmt.interpret, h1, Expr.kind, POut.isErr] at hh
                    | InstanceLiteral inst =>
                        rcases expr with ⟨i0, k0⟩
                        cases k0 <;>
                          refine ⟨fun hc => ?_, fun hh => ?_⟩ <;>
                            first
                              | simp [Stmt.interpret, h1, Expr.kind, POut.isOk] at hc
                              | (simp only [Stmt.interpret, h1, Expr.kind]; omega)
                              | simp [Stmt.interpret, h1, Expr.kind, POut.isErr] at hh
                    | StringLiteral sl =>
                        rcases expr with ⟨i0, k0⟩
                        cases k0 <;>
                          refine ⟨fun hc => ?_, fun hh => ?_⟩ <;>
                            first
                              | simp [Stmt.interpret, h1, Expr.kind, POut.isOk] at hc
                              | (simp only [Stmt.interpret, h1, Expr.kind]; omega)
                              | simp [Stmt.interpret, h1, Expr.kind, POut.isErr] at hh
                    | None =>
                        rcases expr with ⟨i0, k0⟩
                        cases k0 <;>
                          refine ⟨fun hc => ?_, fun hh => ?_⟩ <;>
                            first
                              | simp [Stmt.interpret, h1, Expr.kind, POut.isOk] at hc
                              | (simp only [Stmt.interpret, h1, Expr.kind]; omega)
                              | simp [Stmt.interpret, h1, Expr.kind, POut.isErr] at hh
                | err e =>
                    refine ⟨fun hc => ?_, fun _ => ?_⟩
                    · simp [Stmt.interpret, h1, POut.isOk] at hc
                    · simp only [Stmt.interpret, h1]
                      omega
                | panicked =>
                    refine ⟨fun hc => ?_, fun hc => ?_⟩ <;>
                      simp [Stmt.interpret, h1, POut.isOk, POut.isErr] at hc
                | fuelOut =>
                    refine ⟨fun hc => ?_, fun hc => ?_⟩ <;>
                      simp [Stmt.interpret, h1, POut.isOk, POut.isErr] at hc
        | Expression expression =>
            rcases h1 : Expr.interpret fuel expression env out with ⟨r1, env1, out1⟩
            have e1 : env1.layers.length = env.layers.length := by
              have t := IHe expression env out; rw [h1] at t; exact t
            cases r1 with
            | ok v =>
                refine ⟨fun _ => ?_, fun hc => ?_⟩
                · simp only [Stmt.interpret, h1]; exact e1
                · simp [Stmt.interpret, h1, POut.isErr] at hc
            | err e =>
                refine ⟨fun hc => ?_, fun _ => ?_⟩
                · simp [Stmt.interpret, h1, POut.isOk] at hc
                · simp only [Stmt.interpret, h1]
                  show env1.layers.length ≥ env.layers.length
                  omega
            | panicked =>
                refine ⟨fun hc => ?_, fun hc => ?_⟩ <;>
                  simp [Stmt.interpret, h1, POut.isOk, POut.isErr] at hc
            | fuelOut =>
                refine ⟨fun hc => ?_, fun hc => ?_⟩ <;>
                  simp [Stmt.interpret, h1, POut.isOk, POut.isErr] at hc
        | Function fn =>
            rcases hd : env.define fn.name.lexeme
                (Literal.CallableLiteral (Callable.new_function fn env false)) with _ | env1
            · refine ⟨fun hc => ?_, fun hc => ?_⟩ <;>
                simp [Stmt.interpret, hd, POut.isOk, POut.isErr] at hc
            · have ed := define_layers_length env _ _ env1 hd
              refine ⟨fun _ => ?_, fun hc => ?_⟩
              · simp only [Stmt.interpret, hd]; exact ed
              · simp [Stmt.interpret, hd, POut.isErr] at hc
        | If condition thenBranch elseBranch =>
            rcases h1 : Expr.interpret fuel condition env out with ⟨r1, env1, out1⟩
            have e1 : env1.layers.length = env.layers.length := by
              have t := IHe condition env out; rw [h1] at t; exact t
            cases r1 with
            | ok c =>
                by_cases ht : is_truthy c
                · rcases h2 : Stmt.interpret fuel thenBranch env1 out1 with ⟨r2, env2, out2⟩
                  have hf := IHs thenBranch env1 out1
                  rw [h2] at hf
                  obtain ⟨f1, f2⟩ := hf
                  cases r2 with
                  | ok u =>
                      refine ⟨fun _ => ?_, fun hc => ?_⟩
                      · simp only [Stmt.interpret, h1, ht, if_true]
                        simp only [h2]
                        exact (f1 rfl).trans e1
                      · simp [Stmt.interpret, h1, ht, h2, POut.isErr] at hc
                  | err e =>
                      refine ⟨fun hc => ?_, fun _ => ?_⟩
                      · simp [Stmt.interpret, h1, ht, h2, POut.isOk] at hc
                      · simp only [Stmt.interpret, h1, ht, if_true, h2]
                        show env2.layers.length ≥ env.layers.length
                        have t2 : env2.layers.length ≥ env1.layers.length := f2 rfl
                        omega
                  | panicked =>
                      refine ⟨fun hc => ?_, fun hc => ?_⟩ <;>
                        simp [Stmt.interpret, h1, ht, h2, POut.isOk, POut.isErr] at hc
                  | fuelOut =>
                      refine ⟨fun hc => ?_, fun hc => ?_⟩ <;>
                        simp [Stmt.interpret, h1, ht, h2, POut.isOk, POut.isErr] at hc
                · cases elseBranch with
                  | some eb =>
                      rcases h2 : Stmt.interpret fuel eb env1 out1 with ⟨r2, env2, out2⟩
                      have hf := IHs eb env1 out1
                      rw [h2] at hf
                      obtain ⟨f1, f2⟩ := hf
                      cases r2 with
                      | ok u =>
                          refine ⟨fun _ => ?_, fun hc => ?_⟩
                          · simp only [Stmt.interpret, h1, ht, if_false, h2]
                            exact (f1 rfl).trans e1
                          · simp [Stmt.interpret, h1, ht, h2, POut.isErr] at hc
                      | err e =>
                          refine ⟨fun hc => ?_, fun _ => ?_⟩
                          · simp [Stmt.interpret, h1, ht, h2, POut.isOk] at hc
                          · simp only [Stmt.interpret, h1, ht, if_false, h2]
                            show env2.layers.length ≥ env.layers.length
                            have t2 : env2.layers.length ≥ env1.layers.length := f2 rfl
                            omega
                      | panicked =>
                          refine ⟨fun hc => ?_, fun hc => ?_⟩ <;>
                            simp [Stmt.interpret, h1, ht, h2, POut.isOk, POut.isErr] at hc
                      | fuelOut =>
                          refine ⟨fun hc => ?_, fun hc => ?_⟩ <;>
                            simp [Stmt.interpret, h1, ht, h2, POut.isOk, POut.isErr] at hc
                  | none =>
                      refine ⟨fun _ => ?_, fun hc => ?_⟩
                      · simp only [Stmt.interpret, h1, ht, if_false]
                        exact e1
                      · simp [Stmt.interpret, h1, ht, POut.isErr] at hc
            | err e =>
                refine ⟨fun hc => ?_, fun _ => ?_⟩
                · simp [Stmt.interpret, h1, POut.isOk] at hc
                · simp only [Stmt.interpret, h1]
                  show env1.layers.length ≥ env.layers.length
                  omega
            | panicked =>
                refine ⟨fun hc => ?_, fun hc => ?_⟩ <;>
                  simp [Stmt.interpret, h1, POut.isOk, POut.isErr] at hc
            | fuelOut =>
                refine ⟨fun hc => ?_, fun hc => ?_⟩ <;>
                  simp [Stmt.interpret, h1, POut.isOk, POut.isErr] at hc
        | Print expression =>
            rcases h1 : Expr.interpret fuel expression env out with ⟨r1, env1, out1⟩
            have e1 : env1.layers.length = env.layers.length := by
              have t := IHe expression env out; rw [h1] at t; exact t
            cases r1 with
            | ok v =>
                refine ⟨fun _ => ?_, fun hc => ?_⟩
                · simp only [Stmt.interpret, h1]; exact e1
                · simp [Stmt.interpret, h1, POut.isErr] at hc
            | err e =>
                refine ⟨fun hc => ?_, fun _ => ?_⟩
                · simp [Stmt.interpret, h1, POut.isOk] at hc
                · simp only [Stmt.interpret, h1]
                  show env1.layers.length ≥ env.layers.length
                  omega
            | panicked =>
                refine ⟨fun hc => ?_, fun hc => ?_⟩ <;>
                  simp [Stmt.interpret, h1, POut.isOk, POut.isErr] at hc
            | fuelOut =>
                refine ⟨fun hc => ?_, fun hc => ?_⟩ <;>
                  simp [Stmt.interpret, h1, POut.isOk, POut.isErr] at hc
        | Return keyword value =>
            cases value with
            | some exprv =>
                rcases h1 : Expr.interpret fuel exprv env out with ⟨r1, env1, out1⟩
                have e1 : env1.layers.length = env.layers.length := by
                  have t := IHe exprv env out; rw [h1] at t; exact t
                cases r1 with
                | ok v =>
                    refine ⟨fun hc => ?_, fun _ => ?_⟩
                    · simp [Stmt.interpret, h1, POut.isOk] at hc
                    · simp only [Stmt.interpret, h1]
                      omega
                | err e =>
                    refine ⟨fun hc => ?_, fun _ => ?_⟩
                    · simp [Stmt.interpret, h1, POut.isOk] at hc
                    · simp only [Stmt.interpret, h1]
                      omega
                | panicked =>
                    refine ⟨fun hc => ?_, fun hc => ?_⟩ <;>
                      simp [Stmt.interpret, h1, POut.isOk, POut.isErr] at hc
                | fuelOut =>
                    refine ⟨fun hc => ?_, fun hc => ?_⟩ <;>
                      simp [Stmt.interpret, h1, POut.isOk, POut.isErr] at hc
            | none =>
                refine ⟨fun hc => ?_, fun _ => ?_⟩
                · simp [Stmt.interpret, POut.isOk] at hc
                · simp only [Stmt.interpret]
                  omega
        | Var name initializer =>
            cases initializer with
            | some exprv =>
                rcases h1 : Expr.interpret fuel exprv env out with ⟨r1, env1, out1⟩
                have e1 : env1.layers.length = env.layers.length := by
                  have t := IHe exprv env out; rw [h1] at t; exact t
                cases r1 with
                | ok v =>
                    rcases hd : env1.define name.lexeme v with _ | env2
                    · refine ⟨fun hc => ?_, fun hc => ?_⟩ <;>
                        simp [Stmt.interpret, h1, hd, POut.isOk, POut.isErr] at hc
                    · have ed := define_layers_length env1 _ _ env2 hd
                      refine ⟨fun _ => ?_, fun hc => ?_⟩
                      · simp only [Stmt.interpret, h1, hd]; exact ed.trans e1
                      · simp [Stmt.interpret, h1, hd, POut.isErr] at hc
                | err e =>
                    refine ⟨fun hc => ?_, fun _ => ?_⟩
                    · simp [Stmt.interpret, h1, POut.isOk] at hc
                    · simp only [Stmt.interpret, h1]
                      omega
                | panicked =>
                    refine ⟨fun hc => ?_, fun hc => ?_⟩ <;>
                      simp [Stmt.interpret, h1, POut.isOk, POut.isErr] at hc
                | fuelOut =>
                    refine ⟨fun hc => ?_, fun hc => ?_⟩ <;>
                      simp [Stmt.interpret, h1, POut.isOk, POut.isErr] at hc
            | none =>
                rcases hd : env.define name.lexeme Literal.None with _ | env2
                · refine ⟨fun hc => ?_, fun hc => ?_⟩ <;>
                    simp [Stmt.interpret, hd, POut.isOk, POut.isErr] at hc
                · have ed := define_layers_length env _ _ env2 hd
                  refine ⟨fun _ => ?_, fun hc => ?_⟩
                  · simp only [Stmt.interpret, hd]; exact ed
                  · simp [Stmt.interpret, hd, POut.isErr] at hc
        | While condition body =>
            rcases h1 : Expr.interpret fuel condition env out with ⟨r1, env1, out1⟩
            have e1 : env1.layers.length = env.layers.length := by
              have t := IHe condition env out; rw [h1] at t; exact t
            cases r1 with
            | ok c =>
                by_cases ht : is_truthy c
                · rcases h2 : Stmt.interpret fuel body env1 out1 with ⟨r2, env2, out2⟩
                  have hf := IHs body env1 out1
                  rw [h2] at hf
                  obtain ⟨f1, f2⟩ := hf
                  cases r2 with
                  | ok u =>
                      rcases h3 : Stmt.interpret fuel (Stmt.While condition body) env2 out2 with
                        ⟨r3, env3, out3⟩
                      have hg := IHs (Stmt.While condition body) env2 out2
                      rw [h3] at hg
                      obtain ⟨g1, g2⟩ := hg
                      have e2 : env2.layers.length = env.layers.length := (f1 rfl).trans e1
                      cases r3 with
                      | ok u3 =>
                          refine ⟨fun _ => ?_, fun hc => ?_⟩
                          · simp only [Stmt.interpret, h1, ht, if_true, h2, h3]
                            exact (g1 rfl).trans e2
                          · simp [Stmt.interpret, h1, ht, h2, h3, POut.isErr] at hc
                      | err e3 =>
                          refine ⟨fun hc => ?_, fun _ => ?_⟩
                          · simp [Stmt.interpret, h1, ht, h2, h3, POut.isOk] at hc
                          · simp only [Stmt.interpret, h1, ht, if_true, h2, h3]
                            show env3.layers.length ≥ env.layers.length
                            have t3 : env3.layers.length ≥ env2.layers.length := g2 rfl
                            omega
                      | panicked =>
                          refine ⟨fun hc => ?_, fun hc => ?_⟩ <;>
                            simp [Stmt.interpret, h1, ht, h2, h3, POut.isOk, POut.isErr] at hc
                      | fuelOut =>
                          refine ⟨fun hc => ?_, fun hc => ?_⟩ <;>
                            simp [Stmt.interpret, h1, ht, h2, h3, POut.isOk, POut.isErr] at hc
                  | err e =>
                      refine ⟨fun hc => ?_, fun _ => ?_⟩
                      · simp [Stmt.interpret, h1, ht, h2, POut.isOk] at hc
                      · simp only [Stmt.interpret, h1, ht, if_true, h2]
                        show env2.layers.length ≥ env.layers.length
                        have t2 : env2.layers.length ≥ env1.layers.length := f2 rfl
                        omega
                  | panicked =>
                      refine ⟨fun hc => ?_, fun hc => ?_⟩ <;>
                        simp [Stmt.interpret, h1, ht, h2, POut.isOk, POut.isErr] at hc
                  | fuelOut =>
                      refine ⟨fun hc => ?_, fun hc => ?_⟩ <;>
                        simp [Stmt.interpret, h1, ht, h2, POut.isOk, POut.isErr] at hc
                · refine ⟨fun _ => ?_, fun hc => ?_⟩
                  · simp only [Stmt.interpret, h1, ht, if_false]
                    exact e1
                  · simp [Stmt.interpret, h1, ht, POut.isErr] at hc
            | err e =>
                refine ⟨fun hc => ?_, fun _ => ?_⟩
                · simp [Stmt.interpret, h1, POut.isOk] at hc
                · simp only [Stmt.interpret, h1]
                  show env1.layers.length ≥ env.layers.length
                  omega
            | panicked =>
                refine ⟨fun hc => ?_, fun hc => ?_⟩ <;>
                  simp [Stmt.interpret, h1, POut.isOk, POut.isErr] at hc
            | fuelOut =>
                refine ⟨fun hc => ?_, fun hc => ?_⟩ <;>
                  simp [Stmt.interpret, h1, POut.isOk, POut.isErr] at hc
      have Hl : ∀ l env out,
          ((execute_statements (fuel + 1) l env out).1.isOk = true →
            ((execute_statements (fuel + 1) l env out).2.1).layers.length = env.layers.length) ∧
          ((execute_statements (fuel + 1) l env out).1.isErr = true →
            ((execute_statements (fuel + 1) l env out).2.1).layers.length ≥ env.layers.length) := by
        intro l env out
        cases l with
        | nil =>
            refine ⟨fun _ => ?_, fun hc => ?_⟩
            · simp [execute_statements]
            · simp [execute_statements, POut.isErr] at hc
        | cons s rest =>
            rcases h1 : Stmt.interpret fuel s env out with ⟨r1, env1, out1⟩
            have hf := IHs s env out
            rw [h1] at hf
            obtain ⟨f1, f2⟩ := hf
            cases r1 with
            | ok u =>
                have e1 : env1.layers.length = env.layers.length := f1 rfl
                rcases h2 : execute_statements fuel rest env1 out1 with ⟨r2, env2, out2⟩
                have hg := IHl rest env1 out1
                rw [h2] at hg
                obtain ⟨g1, g2⟩ := hg
                cases r2 with
                | ok u2 =>
                    refine ⟨fun _ => ?_, fun hc => ?_⟩
                    · simp only [execute_statements, h1, h2]
                      exact (g1 rfl).trans e1
                    · simp [execute_statements, h1, h2, POut.isErr] at hc
                | err e =>
                    refine ⟨fun hc => ?_, fun _ => ?_⟩
                    · simp [execute_statements, h1, h2, POut.isOk] at hc
                    · simp only [execute_statements, h1, h2]
                      show env2.layers.length ≥ env.layers.length
                      have t2 : env2.layers.length ≥ env1.layers.length := g2 rfl
                      omega
                | panicked =>
                    refine ⟨fun hc => ?_, fun hc => ?_⟩ <;>
                      simp [execute_statements, h1, h2, POut.isOk, POut.isErr] at hc
                | fuelOut =>
                    refine ⟨fun hc => ?_, fun hc => ?_⟩ <;>
                      simp [execute_statements, h1, h2, POut.isOk, POut.isErr] at hc
            | err e =>
                refine ⟨fun hc => ?_, fun _ => ?_⟩
                · simp [execute_statements, h1, POut.isOk] at hc
                · simp only [execute_statements, h1]
                  show env1.layers.length ≥ env.layers.length
                  exact f2 rfl
            | panicked =>
                refine ⟨fun hc => ?_, fun hc => ?_⟩ <;>
                  simp [execute_statements, h1, POut.isOk, POut.isErr] at hc
            | fuelOut =>
                refine ⟨fun hc => ?_, fun hc => ?_⟩ <;>
                  simp [execute_statements, h1, POut.isOk, POut.isErr] at hc
      have Hb : ∀ l env out,
          ((execute_block (fuel + 1) l env out).1.isOk = true →
            ((execute_block (fuel + 1) l env out).2.1).layers.length = env.layers.length) ∧
          ((execute_block (fuel + 1) l env out).1.isErr = true →
            ((execute_block (fuel + 1) l env out).2.1).layers.length ≥ env.layers.length + 1) := by
        intro l env out
        rcases h1 : execute_statements fuel l env.add_scope out with ⟨r1, env1, out1⟩
        have hf := IHl l env.add_scope out
        rw [h1] at hf
        obtain ⟨f1, f2⟩ := hf
        have hadd := add_scope_layers_length env
        cases r1 with
        | ok u =>
            have e1 := f1 rfl
            have edel := del_scope_layers_length env1
            refine ⟨fun _ => ?_, fun hc => ?_⟩
            · simp only [execute_block, h1]
              show (env1.del_scope).layers.length = env.layers.length
              have t1 : env1.layers.length = (env.add_scope).layers.length := e1
              omega
            · simp [execute_block, h1, POut.isErr] at hc
        | err e =>
            have e1 := f2 rfl
            refine ⟨fun hc => ?_, fun _ => ?_⟩
            · simp [execute_block, h1, POut.isOk] at hc
            · simp only [execute_block, h1]
              show env1.layers.length ≥ env.layers.length + 1
              have t1 : env1.layers.length ≥ (env.add_scope).layers.length := e1
              omega
        | panicked =>
            refine ⟨fun hc => ?_, fun hc => ?_⟩ <;>
              simp [execute_block, h1, POut.isOk, POut.isErr] at hc
        | fuelOut =>
            refine ⟨fun hc => ?_, fun hc => ?_⟩ <;>
              simp [execute_block, h1, POut.isOk, POut.isErr] at hc
      exact ⟨He, Ha, Hs, Hl, Hb⟩

/-- Claim C4 counterexample: executing a block consisting of a single
valueless return statement propagates the return signal as an error and
leaves the pushed scope un-popped: the fresh environment has one layer
before and two layers after. -/
theorem execute_block_depth_counterexample :
    (execute_block 20 [Stmt.Return tok_return none] Environment.new []).1.isErr = true ∧
    Environment.new.layers.length = 1 ∧
    (execute_block 20 [Stmt.Return tok_return none] Environment.new []).2.1.layers.length = 2 := by
  exact ⟨rfl, rfl, rfl⟩

/-- Claim C4 as amended: execute_block pushes a scope and pops it on normal
completion, leaving the scope-stack depth unchanged; when a runtime error
or return signal propagates out of one of the statements, the pushed scope
is not popped and the final depth exceeds the entry depth by at least
one. -/
theorem execute_block_depth (fuel : Nat) (stmts : List Stmt) (env : Environment)
    (out : List String) :
    ((execute_block fuel stmts env out).1.isOk = true →
      ((execute_block fuel stmts env out).2.1).layers.length = env.layers.length) ∧
    ((execute_block fuel stmts env out).1.isErr = true →
      ((execute_block fuel stmts env out).2.1).layers.length ≥ env.layers.length + 1) := by
  exact (interpret_layers_invariant fuel).2.2.2.2 stmts env out

/-- Claim C4 witness: an empty block completes normally with depth
unchanged, and a block ending in a return signal leaves an extra layer. -/
theorem execute_block_depth_witness :
    (execute_block 20 ([] : List Stmt) Environment.new []).2.1.layers.length = 1 ∧
    (execute_block 20 [Stmt.Return tok_return none] Environment.new []).2.1.layers.length ≥ 2 := by
  constructor
  · exact (execute_block_depth 20 [] Environment.new []).1 rfl
  · exact (execute_block_depth 20 [Stmt.Return tok_return none] Environment.new []).2 rfl

end Rlox
